import Mathlib

/-!
Verification of the gowsdl schema resolution and type-mapping engine.

This file gives a shallow embedding, in Lean 4, of the parts of the
gowsdl source that the verified properties talk about:

* the type mapper `toGoType` with its built-in type table, identifier
  sanitization (`normalize`, `makePublic`, `replaceReservedWords`) and its
  side effect on the per-namespace import record (`GoWSDL.imports`);
* the external reference resolver `resolveXSDExternals` with its
  visited-set deduplication and the global recursion counter bounded by
  `maxRecursion`;
* the hand-written, token-driven XML decoders (`XSDSchema.UnmarshalXML`,
  `XSDComplexType.UnmarshalXML`, `unmarshalSequence`, `unmarshalChoice`)
  together with the reflective decoding that Go's `encoding/xml` performs
  for the leaf structures, modelled over a token stream and the node
  forest it parses into.

Go maps are modelled as association lists (`lookupA` / `setA`), Go string
functions by structurally recursive Lean counterparts (`goSplit`,
`goToLower`, `goReplaceAll`, `Char.toUpper`, which agree with the Go ones
on the ASCII inputs all the tables in this source use), and the stateful
methods as explicit state-passing functions.
-/

namespace Gowsdl

/-- Association-list read, modelling a Go `m[k]` lookup with `ok` flag:
`none` when the key is absent. -/
def lookupA {α : Type} : List (String × α) → String → Option α
  | [], _ => none
  | (k', v) :: rest, k => if k' = k then some v else lookupA rest k

/-- Association-list write, modelling a Go `m[k] = v` map update: replaces
the binding when the key is present, appends it otherwise. -/
def setA {α : Type} : List (String × α) → String → α → List (String × α)
  | [], k, v => [(k, v)]
  | (k', v') :: rest, k, v =>
    if k' = k then (k, v) :: rest else (k', v') :: setA rest k v

/-- `goSplitAux sep rest acc`: the tail of Go's `strings.Split` on a
one-character separator, `acc` holding the current field reversed. -/
def goSplitAux (sep : Char) : List Char → List Char → List String
  | [], acc => [String.mk acc.reverse]
  | c :: rest, acc =>
    if c = sep then String.mk acc.reverse :: goSplitAux sep rest []
    else goSplitAux sep rest (c :: acc)

/-- Go's `strings.Split(s, sep)` for the one-character separators this
source uses (`":"`): `""` yields `[""]`, `n` separators yield `n + 1`
fields. -/
def goSplit (s : String) (sep : Char) : List String :=
  goSplitAux sep s.data []

/-- Go's `strings.ToLower` (ASCII case mapping, which agrees with Go on
every key of the tables below). -/
def goToLower (s : String) : String :=
  String.mk (s.data.map Char.toLower)

/-- The tail of Go's `strings.ReplaceAll`: scans left to right, replacing
each non-overlapping occurrence of `k`.  The fuel is structural recursion
bookkeeping only; `goReplaceAll` passes one more than the length of the
scanned text, which a scan that consumes at least one character per step
never exhausts. -/
def goReplaceAllAux (k v : List Char) : Nat → List Char → List Char
  | _, [] => []
  | 0, s => s
  | fuel + 1, c :: rest =>
    if k.isPrefixOf (c :: rest) then
      v ++ goReplaceAllAux k v fuel ((c :: rest).drop k.length)
    else c :: goReplaceAllAux k v fuel rest

/-- Go's `strings.ReplaceAll(s, k, v)` for non-empty `k` (the only way
this source calls it). -/
def goReplaceAll (s k v : String) : String :=
  if k = "" then s
  else String.mk (goReplaceAllAux k.data v.data (s.data.length + 1) s.data)

/-! ## The type mapper's tables (source: `gowsdl.go`) -/

/-- The `reservedWords` map: Go keywords replaced to avoid compilation
issues. -/
def reservedWords : List (String × String) :=
  [("break", "break_"), ("default", "default_"), ("func", "func_"),
   ("interface", "interface_"), ("select", "select_"), ("case", "case_"),
   ("defer", "defer_"), ("go", "go_"), ("map", "map_"),
   ("struct", "struct_"), ("chan", "chan_"), ("else", "else_"),
   ("goto", "goto_"), ("package", "package_"), ("switch", "switch_"),
   ("const", "const_"), ("fallthrough", "fallthrough_"), ("if", "if_"),
   ("range", "range_"), ("type", "type_"), ("continue", "continue_"),
   ("for", "for_"), ("import", "import_"), ("return", "return_"),
   ("var", "var_")]

/-- The `specialCharacterMapping` map used by `normalize`. -/
def specialCharacterMapping : List (String × String) :=
  [("+", "Plus"), ("@", "At")]

/-- The `basicTypes` map consulted by `isBasicType` / `makePublic`. -/
def basicTypes : List (String × String) :=
  [("string", "string"), ("float32", "float32"), ("float64", "float64"),
   ("int", "int"), ("int8", "int8"), ("int16", "int16"),
   ("int32", "int32"), ("int64", "int64"), ("bool", "bool"),
   ("time.Time", "time.Time"), ("[]byte", "[]byte"), ("byte", "byte"),
   ("uint16", "uint16"), ("uint32", "uint32"), ("uinit64", "uint64"),
   ("interface\x7b\x7d", "interface\x7b\x7d")]

/-- The `xsd2GoTypes` map: built-in XSD type names (lower-cased) to Go
types. -/
def xsd2GoTypes : List (String × String) :=
  [("string", "string"), ("token", "string"), ("float", "float32"),
   ("double", "float64"), ("decimal", "float64"), ("integer", "int32"),
   ("int", "int32"), ("short", "int16"), ("byte", "int8"),
   ("long", "int64"), ("boolean", "bool"),
   ("datetime", "soap.XSDDateTime"), ("date", "soap.XSDDate"),
   ("time", "soap.XSDTime"), ("base64binary", "[]byte"),
   ("hexbinary", "[]byte"), ("unsignedint", "uint32"),
   ("nonnegativeinteger", "uint32"), ("unsignedshort", "uint16"),
   ("unsignedbyte", "byte"), ("unsignedlong", "uint64"),
   ("anytype", "AnyType"), ("ncname", "NCName"), ("anyuri", "AnyURI")]

/-! ## Identifier sanitization (source: `gowsdl.go`) -/

/-- `normalize`: replace `+`/`@` by words, map `.` and `-` to `_`, drop any
character that is not a letter, a digit or `_` (Go's `unicode.IsLetter` /
`unicode.IsDigit` restricted to ASCII, which is all the claims exercise). -/
def normalize (value : String) : String :=
  let value :=
    specialCharacterMapping.foldl (fun acc kv => goReplaceAll acc kv.1 kv.2) value
  String.mk (value.toList.filterMap (fun r =>
    if r = '.' ∨ r = '-' then some '_'
    else if r.isAlpha ∨ r.isDigit ∨ r = '_' then some r
    else none))

/-- `replaceReservedWords`: a Go keyword is replaced by its table entry,
anything else is normalized.  (Go reads a missing key as `""`; every value
of the table is non-empty, so `getD ""` is that read.) -/
def replaceReservedWords (identifier : String) : String :=
  let value := (lookupA reservedWords identifier).getD ""
  if value ≠ "" then value else normalize identifier

/-- `isBasicType`: membership in the `basicTypes` map. -/
def isBasicType (identifier : String) : Bool :=
  (lookupA basicTypes identifier).isSome

/-- `makePublic`: basic types and the empty identifier are special-cased;
otherwise the first rune is sent through `unicode.ToUpper` (ASCII
`Char.toUpper` here). -/
def makePublic (identifier : String) : String :=
  if isBasicType identifier then identifier
  else if identifier = "" then "EmptyString"
  else
    match identifier.toList with
    | [] => identifier
    | c :: cs => String.mk (c.toUpper :: cs)

/-- `removeNS`: drop a single `prefix:` qualifier from a type reference. -/
def removeNS (xsdType : String) : String :=
  let r := goSplit xsdType ':'
  if r.length = 2 then r.getD 1 "" else r.getD 0 ""

/-! ## The generator state and `toGoType` (source: `gowsdl.go`) -/

/-- The fields of the Go `GoWSDL` struct that the namespace/package router
and the type mapper read or write: the currently generated namespace, the
prefix-to-namespace map of the schema being rendered, the configured
namespace-to-package mapping, and the per-namespace record of imported
packages. -/
structure GoWSDL where
  currentNamespace : String
  currentNamespaceMap : List (String × String)
  nsToPkg : List (String × String)
  imports : List (String × List String)
deriving DecidableEq

/-- `getNSFromMap`: prefix to namespace, `""` when absent. -/
def getNSFromMap (g : GoWSDL) (p : String) : String :=
  (lookupA g.currentNamespaceMap p).getD ""

/-- `getNSPackage`: namespace to package, `""` when absent. -/
def getNSPackage (g : GoWSDL) (ns : String) : String :=
  (lookupA g.nsToPkg ns).getD ""

/-- The body of `toGoType` up to (but not including) the final optionality
wrap: splits off the namespace qualifier, consults `xsd2GoTypes` on the
lower-cased local name, otherwise sanitizes the name and, for a qualified
reference into a different configured namespace, prepends the package and
records it in `g.imports` (at most once per namespace). Returns the
updated state and the unwrapped type. -/
def toGoTypeCore (g : GoWSDL) (xsdType : String) : GoWSDL × String :=
  let r := goSplit xsdType ':'
  let gotype := if r.length = 2 then r.getD 1 "" else r.getD 0 ""
  let value := (lookupA xsd2GoTypes (goToLower gotype)).getD ""
  if value = "" then
    let value := replaceReservedWords (makePublic gotype)
    if r.length = 2 then
      let ns := getNSFromMap g (r.getD 0 "")
      if ns ≠ g.currentNamespace then
        let pkg := getNSPackage g ns
        if pkg ≠ "" then
          let value := pkg ++ "." ++ value
          let g' :=
            match lookupA g.imports g.currentNamespace with
            | some pkgList =>
              if pkg ∈ pkgList then g
              else
                let imports' := setA g.imports g.currentNamespace (pkgList ++ [pkg])
                { g with imports := imports' }
            | none =>
              { g with imports := setA g.imports g.currentNamespace [pkg] }
          (g', value)
        else (g, value)
      else (g, value)
    else (g, value)
  else (g, value)

/-- `toGoType xsdType nillable minOccurs`: the full mapper, the final step
being the optionality wrap `value = "*" + value` exactly when
`nillable || minOccurs == "0"`. -/
def toGoType (g : GoWSDL) (xsdType : String) (nillable : Bool)
    (minOccurs : String) : GoWSDL × String :=
  let gv := toGoTypeCore g xsdType
  (gv.1, if nillable || minOccurs == "0" then "*" ++ gv.2 else gv.2)

/-- The per-namespace import record never lists a package twice. -/
def importsNodup (g : GoWSDL) : Prop :=
  ∀ ns l, lookupA g.imports ns = some l → l.Nodup

/-- A sequence of type-mapper calls (each a reference with its nillable
flag and minOccurs string), threading the generator state. -/
def runRefs (g : GoWSDL) (refs : List (String × Bool × String)) : GoWSDL :=
  refs.foldl (fun g r => (toGoType g r.1 r.2.1 r.2.2).1) g

end Gowsdl

namespace Gowsdl

/-! ## The XSD data model (source: `xsd.go`) -/

/-- `XSDInclude`: schema includes (`schemaLocation` attribute). -/
structure XSDInclude where
  SchemaLocation : String
deriving DecidableEq

/-- `XSDImport`: XSD imports (`schemaLocation` and `namespace`
attributes); `XMLName` is Go's `xml.Name` as a (space, local) pair. -/
structure XSDImport where
  XMLName : String × String
  SchemaLocation : String
  Namespace : String
deriving DecidableEq

/-- `XSDAny`: a wildcard element. -/
structure XSDAny where
  XMLName : String × String
  Doc : String
  MinOccurs : String
  MaxOccurs : String
  Namespace : String
  ProcessContents : String
deriving DecidableEq

/-- `XSDRestrictionValue`: a restriction facet value. -/
structure XSDRestrictionValue where
  Doc : String
  Value : String
deriving DecidableEq

/-- `XSDRestriction`: restrictions on a simpleType. -/
structure XSDRestriction where
  Base : String
  Enumeration : List XSDRestrictionValue
  Pattern : XSDRestrictionValue
  MinInclusive : XSDRestrictionValue
  MaxInclusive : XSDRestrictionValue
  WhiteSpace : XSDRestrictionValue
  Length : XSDRestrictionValue
  MinLength : XSDRestrictionValue
  MaxLength : XSDRestrictionValue
deriving DecidableEq

mutual

/-- `XSDElement`: a schema element declaration.  The fields are, in the
order of the Go struct: XMLName, Name, Doc, Nillable, Type, Ref,
MinOccurs, MaxOccurs, the optional local ComplexType and SimpleType, and
Groups.  (`Type'` stands for the Go field `Type`, a Lean keyword.) -/
inductive XSDElement where
  | mk (XMLName : String × String) (Name : String) (Doc : String)
       (Nillable : Bool) (Type' : String) (Ref : String)
       (MinOccurs : String) (MaxOccurs : String)
       (ComplexType : Option XSDComplexType)
       (SimpleType : Option XSDSimpleType)
       (Groups : List XSDGroup) : XSDElement

/-- `XSDComplexType`: a complex type, with its three particle lists
(Sequence, Choice, All), complex/simple content, attributes and
wildcards. -/
inductive XSDComplexType where
  | mk (XMLName : String × String) (Abstract : Bool) (Name : String)
       (Mixed : Bool) (Sequence : List XSDElement)
       (Choice : List XSDElement) (All : List XSDElement)
       (ComplexContent : XSDComplexContent)
       (SimpleContent : XSDSimpleContent)
       (Attributes : List XSDAttribute) (Any : List XSDAny) : XSDComplexType

/-- `XSDComplexContent`: extension on a complex type. -/
inductive XSDComplexContent where
  | mk (XMLName : String × String) (Extension : XSDExtension) : XSDComplexContent

/-- `XSDSimpleContent`: extension on a text-only complex type. -/
inductive XSDSimpleContent where
  | mk (XMLName : String × String) (Extension : XSDExtension) : XSDSimpleContent

/-- `XSDExtension`: extends a simpleType or complexType. -/
inductive XSDExtension where
  | mk (XMLName : String × String) (Base : String)
       (Attributes : List XSDAttribute) (Sequence : List XSDElement)
       (Choice : List XSDElement) (SequenceChoice : List XSDElement) : XSDExtension

/-- `XSDAttribute`: an element attribute. -/
inductive XSDAttribute where
  | mk (Doc : String) (Name : String) (Ref : String) (Type' : String)
       (Use : String) (Fixed : String)
       (SimpleType : Option XSDSimpleType) : XSDAttribute

/-- `XSDSimpleType`: a simple type (restriction, list or union). -/
inductive XSDSimpleType where
  | mk (Name : String) (Doc : String) (Restriction : XSDRestriction)
       (ListT : XSDList) (Union : XSDUnion) (Final : String) : XSDSimpleType

/-- `XSDList`: a list simple type. -/
inductive XSDList where
  | mk (Doc : String) (ItemType : String)
       (SimpleType : Option XSDSimpleType) : XSDList

/-- `XSDUnion`: a union simple type. -/
inductive XSDUnion where
  | mk (SimpleType : List XSDSimpleType) (MemberTypes : String) : XSDUnion

/-- `XSDGroup`: a named group of elements. -/
inductive XSDGroup where
  | mk (Name : String) (Ref : String) (Sequence : List XSDElement)
       (Choice : List XSDElement) (All : List XSDElement) : XSDGroup

end

/-- `XSDChoiceType`: the target of `unmarshalChoice`'s `DecodeElement`. -/
structure XSDChoiceType where
  XMLName : String × String
  Name : String
  MinOccurs : String
  Elements : List XSDElement

/-- `XSDAllType`: the target of the `all` branch's `DecodeElement`. -/
structure XSDAllType where
  XMLName : String × String
  Elements : List XSDElement

/-- `XSDSchema`: one parsed schema document. -/
structure XSDSchema where
  XMLName : String × String
  Xmlns : List (String × String)
  Tns : String
  Xs : String
  Version : String
  TargetNamespace : String
  ElementFormDefault : String
  Includes : List XSDInclude
  Imports : List XSDImport
  Elements : List XSDElement
  Attributes : List XSDAttribute
  ComplexTypes : List XSDComplexType
  SimpleType : List XSDSimpleType

/-! Field accessors and updaters for the mutually inductive part of the
model (Lean generates these only for structures). -/

def XSDElement.Name : XSDElement → String
  | .mk _ n _ _ _ _ _ _ _ _ _ => n

def XSDElement.MinOccurs : XSDElement → String
  | .mk _ _ _ _ _ _ mo _ _ _ _ => mo

def XSDElement.Nillable : XSDElement → Bool
  | .mk _ _ _ nil _ _ _ _ _ _ _ => nil

def XSDElement.Type' : XSDElement → String
  | .mk _ _ _ _ t _ _ _ _ _ _ => t

/-- `x.Elements[i].MinOccurs = m` (the mutation `unmarshalChoice` applies
to each element of a choice). -/
def XSDElement.setMinOccurs : XSDElement → String → XSDElement
  | .mk xn n d nil t r _ ma ct st gs, m => .mk xn n d nil t r m ma ct st gs

def XSDComplexType.XMLName : XSDComplexType → String × String
  | .mk xn _ _ _ _ _ _ _ _ _ _ => xn

def XSDComplexType.Name : XSDComplexType → String
  | .mk _ _ n _ _ _ _ _ _ _ _ => n

def XSDComplexType.Abstract : XSDComplexType → Bool
  | .mk _ a _ _ _ _ _ _ _ _ _ => a

def XSDComplexType.Mixed : XSDComplexType → Bool
  | .mk _ _ _ m _ _ _ _ _ _ _ => m

def XSDComplexType.Sequence : XSDComplexType → List XSDElement
  | .mk _ _ _ _ s _ _ _ _ _ _ => s

def XSDComplexType.Choice : XSDComplexType → List XSDElement
  | .mk _ _ _ _ _ c _ _ _ _ _ => c

def XSDComplexType.All : XSDComplexType → List XSDElement
  | .mk _ _ _ _ _ _ a _ _ _ _ => a

def XSDComplexType.ComplexContent : XSDComplexType → XSDComplexContent
  | .mk _ _ _ _ _ _ _ cc _ _ _ => cc

def XSDComplexType.SimpleContent : XSDComplexType → XSDSimpleContent
  | .mk _ _ _ _ _ _ _ _ sc _ _ => sc

def XSDComplexType.Attributes : XSDComplexType → List XSDAttribute
  | .mk _ _ _ _ _ _ _ _ _ ats _ => ats

def XSDComplexType.Any : XSDComplexType → List XSDAny
  | .mk _ _ _ _ _ _ _ _ _ _ an => an

def XSDComplexType.setSequence : XSDComplexType → List XSDElement → XSDComplexType
  | .mk xn ab n m _ c a cc sc ats an, s => .mk xn ab n m s c a cc sc ats an

def XSDComplexType.setChoice : XSDComplexType → List XSDElement → XSDComplexType
  | .mk xn ab n m s _ a cc sc ats an, c => .mk xn ab n m s c a cc sc ats an

def XSDComplexType.setAll : XSDComplexType → List XSDElement → XSDComplexType
  | .mk xn ab n m s c _ cc sc ats an, a => .mk xn ab n m s c a cc sc ats an

def XSDComplexType.setComplexContent : XSDComplexType → XSDComplexContent → XSDComplexType
  | .mk xn ab n m s c a _ sc ats an, cc => .mk xn ab n m s c a cc sc ats an

def XSDComplexType.setSimpleContent : XSDComplexType → XSDSimpleContent → XSDComplexType
  | .mk xn ab n m s c a cc _ ats an, sc => .mk xn ab n m s c a cc sc ats an

def XSDComplexType.setAttributes : XSDComplexType → List XSDAttribute → XSDComplexType
  | .mk xn ab n m s c a cc sc _ an, ats => .mk xn ab n m s c a cc sc ats an

def XSDComplexType.setAny : XSDComplexType → List XSDAny → XSDComplexType
  | .mk xn ab n m s c a cc sc ats _, an => .mk xn ab n m s c a cc sc ats an

/-- The Go zero value of `XSDExtension`. -/
def zeroExtension : XSDExtension := .mk ("", "") "" [] [] [] []

/-- The Go zero value of `XSDComplexContent`. -/
def zeroComplexContent : XSDComplexContent := .mk ("", "") zeroExtension

/-- The Go zero value of `XSDSimpleContent`. -/
def zeroSimpleContent : XSDSimpleContent := .mk ("", "") zeroExtension

/-- The Go zero value of `XSDRestrictionValue`. -/
def zeroRestrictionValue : XSDRestrictionValue := ⟨"", ""⟩

/-- The Go zero value of `XSDRestriction`. -/
def zeroRestriction : XSDRestriction :=
  ⟨"", [], zeroRestrictionValue, zeroRestrictionValue, zeroRestrictionValue,
   zeroRestrictionValue, zeroRestrictionValue, zeroRestrictionValue,
   zeroRestrictionValue⟩

/-- The Go zero value of `XSDList`. -/
def zeroList : XSDList := .mk "" "" none

/-- The Go zero value of `XSDUnion`. -/
def zeroUnion : XSDUnion := .mk [] ""

/-- A freshly allocated `new(XSDComplexType)` before its decoder runs. -/
def zeroComplexType : XSDComplexType :=
  .mk ("", "") false "" false [] [] [] zeroComplexContent zeroSimpleContent [] []

end Gowsdl

namespace Gowsdl

/-! ## The external reference resolver (source: `gowsdl.go`) -/

/-- `maxRecursion`: the fixed ceiling on the global recursion counter. -/
def maxRecursion : Nat := 20

/-- The read-only environment of a resolution pass: `parse` models
`Location.Parse` followed by `Location.String` (base location and
reference to the canonical string of the resolved location, `none` on a
parse error), `world` models `fetchFile` composed with `xml.Unmarshal`
(the decoded schema served at a canonical location, `none` when fetching
or decoding fails), and `nsToPkg` the configured namespace-to-package
mapping `g.nsToPkg`. -/
structure ResolveEnv where
  parse : String → String → Option String
  world : String → Option XSDSchema
  nsToPkg : List (String × String)

/-- The mutable state of a resolution pass: the visited set
`g.resolvedXSDExternals` (keyed by canonical location string) and the
global counter `g.currentRecursionLevel`, plus two ghost logs that only
instrument the run for the theorems: every location handed to
`fetchFile`, in order, and every location on which the resolver entered a
recursive `resolveXSDExternals` call. -/
structure ResolveState where
  resolvedXSDExternals : List String
  currentRecursionLevel : Nat
  fetchLog : List String
  recLog : List String
deriving DecidableEq

/-- The state a `GoWSDL` starts a resolution pass with: no visited
entries, counter zero, empty logs. -/
def initResolveState : ResolveState := ⟨[], 0, [], []⟩

mutual

/-- `resolveXSDExternals(schema, loc)` given a fuel argument.  The fuel is
a termination device only: every recursive entry is guarded by
`currentRecursionLevel < maxRecursion` and increments the counter, so the
nesting depth from a state at level `L` is at most `maxRecursion - L + 1`
and the `maxRecursion + 1` that the fuel-free wrapper passes from a fresh
state is never exhausted.  The body runs the `schema.Imports` loop and
then the `schema.Includes` loop, concatenating their results. -/
def resolveXSDExternalsF (env : ResolveEnv) (fuel : Nat) (st : ResolveState)
    (schema : XSDSchema) (loc : String) :
    ResolveState × Except String (List XSDSchema) :=
  if h : fuel = 0 then (st, .error "resolution fuel exhausted") else
    match resolveImportsLoop env (fuel - 1) st schema.Imports loc with
    | (st1, .error e) => (st1, .error e)
    | (st1, .ok acc1) =>
      match resolveIncludesLoop env (fuel - 1) st1 schema.Includes loc with
      | (st2, .error e) => (st2, .error e)
      | (st2, .ok acc2) => (st2, .ok (acc1 ++ acc2))
termination_by (fuel, 0, 0)

/-- The `for _, impts := range schema.Imports` loop of
`resolveXSDExternals`: an import without a `schemaLocation` hint is only
warned about and skipped; the others are downloaded, an error aborting
the whole pass. -/
def resolveImportsLoop (env : ResolveEnv) (fuel : Nat) (st : ResolveState)
    (impts : List XSDImport) (loc : String) :
    ResolveState × Except String (List XSDSchema) :=
  match impts with
  | [] => (st, .ok [])
  | impt :: rest =>
    if impt.SchemaLocation = "" then resolveImportsLoop env fuel st rest loc
    else
      match downloadExt env fuel st loc impt.SchemaLocation with
      | (st1, .error e) => (st1, .error e)
      | (st1, .ok newSchemas) =>
        match resolveImportsLoop env fuel st1 rest loc with
        | (st2, .error e) => (st2, .error e)
        | (st2, .ok more) => (st2, .ok (newSchemas ++ more))
termination_by (fuel, 2, impts.length)

/-- The `for _, incl := range schema.Includes` loop of
`resolveXSDExternals` (no location-hint check here). -/
def resolveIncludesLoop (env : ResolveEnv) (fuel : Nat) (st : ResolveState)
    (incls : List XSDInclude) (loc : String) :
    ResolveState × Except String (List XSDSchema) :=
  match incls with
  | [] => (st, .ok [])
  | incl :: rest =>
    match downloadExt env fuel st loc incl.SchemaLocation with
    | (st1, .error e) => (st1, .error e)
    | (st1, .ok newSchemas) =>
      match resolveIncludesLoop env fuel st1 rest loc with
      | (st2, .error e) => (st2, .error e)
      | (st2, .ok more) => (st2, .ok (newSchemas ++ more))
termination_by (fuel, 2, incls.length)

/-- The `download` closure of `resolveXSDExternals`: resolve the
reference against the referring document's location, return no new
documents when the canonical key was already visited, otherwise mark it
visited, fetch and decode it, recurse into its own externals while the
guard `(has imports or includes) && maxRecursion > currentRecursionLevel`
holds (incrementing the global counter), then enforce the multi-package
namespace mapping, and append the new document after the documents its
recursion produced. -/
def downloadExt (env : ResolveEnv) (fuel : Nat) (st : ResolveState)
    (base ref : String) :
    ResolveState × Except String (List XSDSchema) :=
  match env.parse base ref with
  | none => (st, .error ("could not parse location " ++ ref))
  | some key =>
    if key ∈ st.resolvedXSDExternals then (st, .ok [])
    else
      let st1 := { st with
        resolvedXSDExternals := st.resolvedXSDExternals ++ [key] }
      match env.world key with
      | none =>
        ({ st1 with fetchLog := st1.fetchLog ++ [key] },
         .error ("could not fetch or decode " ++ key))
      | some newschema =>
        let st2 := { st1 with fetchLog := st1.fetchLog ++ [key] }
        let step :=
          if (0 < newschema.Includes.length ∨ 0 < newschema.Imports.length)
              ∧ st2.currentRecursionLevel < maxRecursion then
            let st3 := { st2 with
              currentRecursionLevel := st2.currentRecursionLevel + 1,
              recLog := st2.recLog ++ [key] }
            resolveXSDExternalsF env fuel st3 newschema key
          else (st2, .ok [])
        match step with
        | (st4, .error e) => (st4, .error e)
        | (st4, .ok downloadResult) =>
          if 0 < env.nsToPkg.length
              ∧ (lookupA env.nsToPkg newschema.TargetNamespace).getD "" = "" then
            (st4, .error ("no package mapping for namespace "
              ++ newschema.TargetNamespace))
          else (st4, .ok (downloadResult ++ [newschema]))
termination_by (fuel, 1, 0)

end

/-- `resolveXSDExternals`: the fuel-free entry point (see
`resolveXSDExternalsF` on why `maxRecursion + 1` fuel suffices). -/
def resolveXSDExternals (env : ResolveEnv) (st : ResolveState)
    (schema : XSDSchema) (loc : String) :
    ResolveState × Except String (List XSDSchema) :=
  resolveXSDExternalsF env (maxRecursion + 1) st schema loc

/-- The schema loop of `unmarshal`: in multi-package mode a root schema
whose target namespace has no configured package aborts the run before
its externals are even resolved; otherwise every root schema's externals
are resolved in turn and the newly resolved documents collected (to be
appended to the working set). -/
def unmarshalSchemasLoop (env : ResolveEnv) (st : ResolveState)
    (schemas : List XSDSchema) (loc : String) :
    ResolveState × Except String (List XSDSchema) :=
  match schemas with
  | [] => (st, .ok [])
  | schema :: rest =>
    if 0 < env.nsToPkg.length
        ∧ (lookupA env.nsToPkg schema.TargetNamespace).getD "" = "" then
      (st, .error ("no package mapping for namespace " ++ schema.TargetNamespace))
    else
      match resolveXSDExternals env st schema loc with
      | (st1, .error e) => (st1, .error e)
      | (st1, .ok schemas') =>
        match unmarshalSchemasLoop env st1 rest loc with
        | (st2, .error e) => (st2, .error e)
        | (st2, .ok more) => (st2, .ok (schemas' ++ more))

/-! The non-recursive reference behaviour of the resolver once the global
counter has reached the ceiling: identical to `resolveXSDExternals`
except that a newly decoded document's own externals are never entered.
`resolveXSDExternals_at_ceiling` proves the resolver refines this. -/

/-- `downloadExt` without the recursive step (the guard at the ceiling is
always false). -/
def downloadShallow (env : ResolveEnv) (st : ResolveState) (base ref : String) :
    ResolveState × Except String (List XSDSchema) :=
  match env.parse base ref with
  | none => (st, .error ("could not parse location " ++ ref))
  | some key =>
    if key ∈ st.resolvedXSDExternals then (st, .ok [])
    else
      let st1 := { st with
        resolvedXSDExternals := st.resolvedXSDExternals ++ [key] }
      match env.world key with
      | none =>
        ({ st1 with fetchLog := st1.fetchLog ++ [key] },
         .error ("could not fetch or decode " ++ key))
      | some newschema =>
        let st2 := { st1 with fetchLog := st1.fetchLog ++ [key] }
        if 0 < env.nsToPkg.length
            ∧ (lookupA env.nsToPkg newschema.TargetNamespace).getD "" = "" then
          (st2, .error ("no package mapping for namespace "
            ++ newschema.TargetNamespace))
        else (st2, .ok [newschema])

/-- The imports loop over `downloadShallow`. -/
def importsLoopShallow (env : ResolveEnv) (st : ResolveState)
    (impts : List XSDImport) (loc : String) :
    ResolveState × Except String (List XSDSchema) :=
  match impts with
  | [] => (st, .ok [])
  | impt :: rest =>
    if impt.SchemaLocation = "" then importsLoopShallow env st rest loc
    else
      match downloadShallow env st loc impt.SchemaLocation with
      | (st1, .error e) => (st1, .error e)
      | (st1, .ok newSchemas) =>
        match importsLoopShallow env st1 rest loc with
        | (st2, .error e) => (st2, .error e)
        | (st2, .ok more) => (st2, .ok (newSchemas ++ more))

/-- The includes loop over `downloadShallow`. -/
def includesLoopShallow (env : ResolveEnv) (st : ResolveState)
    (incls : List XSDInclude) (loc : String) :
    ResolveState × Except String (List XSDSchema) :=
  match incls with
  | [] => (st, .ok [])
  | incl :: rest =>
    match downloadShallow env st loc incl.SchemaLocation with
    | (st1, .error e) => (st1, .error e)
    | (st1, .ok newSchemas) =>
      match includesLoopShallow env st1 rest loc with
      | (st2, .error e) => (st2, .error e)
      | (st2, .ok more) => (st2, .ok (newSchemas ++ more))

/-- One level of resolution with no recursion into new documents. -/
def resolveShallow (env : ResolveEnv) (st : ResolveState)
    (schema : XSDSchema) (loc : String) :
    ResolveState × Except String (List XSDSchema) :=
  match importsLoopShallow env st schema.Imports loc with
  | (st1, .error e) => (st1, .error e)
  | (st1, .ok acc1) =>
    match includesLoopShallow env st1 schema.Includes loc with
    | (st2, .error e) => (st2, .error e)
    | (st2, .ok acc2) => (st2, .ok (acc1 ++ acc2))

end Gowsdl


namespace Gowsdl

/-- A schema with every field empty. -/
def emptyXSDSchema : XSDSchema :=
  ⟨("", ""), [], "", "", "", "", "", [], [], [], [], [], []⟩


/-- A root schema (namespace `urn:A`) whose one include resolves to `LB`. -/
def cycleSchemaA : XSDSchema :=
  { emptyXSDSchema with TargetNamespace := "urn:A", Includes := [⟨"b.xsd"⟩] }


/-- A schema (namespace `urn:B`) whose one include resolves back to `LA`. -/
def cycleSchemaB : XSDSchema :=
  { emptyXSDSchema with TargetNamespace := "urn:B", Includes := [⟨"a.xsd"⟩] }


/-- A two-document include cycle: `LA` serves `cycleSchemaA`, `LB` serves
`cycleSchemaB`, each including the other; single-package mode. -/
def cycleEnv : ResolveEnv :=
  ⟨fun base ref =>
      if base = "LA" ∧ ref = "b.xsd" then some "LB"
      else if base = "LB" ∧ ref = "a.xsd" then some "LA"
      else none,
   fun key =>
      if key = "LA" then some cycleSchemaA
      else if key = "LB" then some cycleSchemaB
      else none,
   []⟩


/-- `LogStep st st'`: the recursion counter and the recursion log moved
together from `st` to `st'`: the log grew by some suffix `t` and the
counter by exactly `t.length` (one increment per recursive entry, no
reset, no decrement). -/
def LogStep (st st' : ResolveState) : Prop :=
  ∃ t, st'.recLog = st.recLog ++ t
    ∧ st'.currentRecursionLevel = st.currentRecursionLevel + t.length


/-- A schema with a target namespace that has no package mapping in
`multiEnv` and no externals of its own. -/
def plainSchemaB : XSDSchema := { emptyXSDSchema with TargetNamespace := "urn:B" }

/-- A multi-package environment: one configured namespace (`urn:A`), and a
world serving `plainSchemaB` (namespace `urn:B`, unmapped) at `LB`. -/
def multiEnv : ResolveEnv :=
  ⟨fun base ref => if base = "LA" ∧ ref = "b.xsd" then some "LB" else none,
   fun key => if key = "LB" then some plainSchemaB else none,
   [("urn:A", "apkg")]⟩


end Gowsdl

namespace Gowsdl

/-! ## The XML token and node model (for `encoding/xml`-driven decoding) -/

/-- The XML schema namespace constant `xmlschema11`. -/
def xmlschema11 : String := "http://www.w3.org/2001/XMLSchema"

/-- One token of the decoder's stream, as `xml.Decoder.Token` delivers it:
a start element (namespace, local name, attributes as
(space, local, value) triples), an end element, character data, or an
unreadable token (the byte stream failing to lex, which `Token` reports
as an error). -/
inductive XTok where
  | tstart (sp ln : String) (attrs : List (String × String × String))
  | tend
  | ttext (s : String)
  | tbad
deriving DecidableEq

/-- A parsed XML node: an element with its children in document order, or
character data. -/
inductive XNode where
  | elem (sp ln : String) (attrs : List (String × String × String))
         (children : List XNode)
  | txt (s : String)

/-- Token-level failures: the ways reading the underlying stream itself
fails (`xml.Decoder.Token` returning an error, or no root element). -/
inductive TokErr where
  | badToken
  | unexpectedEOF
  | unexpectedEndElement
  | noRootElement
deriving DecidableEq

/-- Decode-level failures: the ways decoding a recognized child fails
(`encoding/xml`'s name check on a struct's `XMLName` field, and
`strconv.ParseBool` on a boolean attribute). -/
inductive DecodeErr where
  | nameMismatch (expected actual : String)
  | boolParseError (value : String)
deriving DecidableEq

/-- A failure of the whole unmarshal: either the token stream was
unreadable or a recognized child failed to decode. -/
inductive XMLErr where
  | tok (e : TokErr)
  | dec (e : DecodeErr)
deriving DecidableEq

/-- An open element while the token stream is folded into a forest. -/
abbrev XFrame := String × String × List (String × String × String) × List XNode

/-- Fold a token stream into a forest of nodes: `stk` holds the open
elements (children so far in reverse), `acc` the finished top-level nodes
in reverse.  Any unreadable token, an end element with nothing open, or
end of input with an element still open is a token-level error. -/
def buildForestAux : List XTok → List XFrame → List XNode → Except TokErr (List XNode)
  | [], [], acc => .ok acc.reverse
  | [], _ :: _, _ => .error .unexpectedEOF
  | .tbad :: _, _, _ => .error .badToken
  | .tstart sp ln attrs :: rest, stk, acc =>
    buildForestAux rest ((sp, ln, attrs, []) :: stk) acc
  | .ttext s :: rest, [], acc => buildForestAux rest [] (.txt s :: acc)
  | .ttext s :: rest, (sp, ln, attrs, ks) :: stk, acc =>
    buildForestAux rest ((sp, ln, attrs, .txt s :: ks) :: stk) acc
  | .tend :: _, [], _ => .error .unexpectedEndElement
  | .tend :: rest, (sp, ln, attrs, ks) :: stk, acc =>
    match stk with
    | [] => buildForestAux rest [] (.elem sp ln attrs ks.reverse :: acc)
    | (sp', ln', attrs', ks') :: stk' =>
      buildForestAux rest ((sp', ln', attrs', .elem sp ln attrs ks.reverse :: ks') :: stk') acc

/-- The forest a token stream parses into. -/
def buildForest (ts : List XTok) : Except TokErr (List XNode) :=
  buildForestAux ts [] []

/-- The first element node of a forest (what `xml.Unmarshal` unmarshals
into, skipping leading character data). -/
def firstElemNode : List XNode → Option (String × String × List (String × String × String) × List XNode)
  | [] => none
  | .elem sp ln attrs ks :: _ => some (sp, ln, attrs, ks)
  | .txt _ :: rest => firstElemNode rest

/-- Attribute lookup by local name, the last match winning (Go's
reflective decoding assigns on every matching attribute; a tag without a
namespace matches any attribute namespace). -/
def attrGet (attrs : List (String × String × String)) (lname : String) : Option String :=
  attrs.foldl (fun acc a => if a.2.1 = lname then some a.2.2 else acc) none

/-- `attrGet` with the Go zero value for an absent attribute. -/
def attrGetD (attrs : List (String × String × String)) (lname : String) : String :=
  (attrGet attrs lname).getD ""

/-- Go's `strconv.ParseBool`: the twelve accepted literals. -/
def parseBool (s : String) : Option Bool :=
  if s = "1" ∨ s = "t" ∨ s = "T" ∨ s = "true" ∨ s = "TRUE" ∨ s = "True" then some true
  else if s = "0" ∨ s = "f" ∨ s = "F" ∨ s = "FALSE" ∨ s = "false" ∨ s = "False" then
    some false
  else none

/-- The concatenated character data directly inside an element (what a
string struct field receives). -/
def textContent (kids : List XNode) : String :=
  kids.foldl (fun acc n => match n with | .txt s => acc ++ s | _ => acc) ""

/-- One `annotation` element's contribution to a `Doc` field
(`xml:"annotation>documentation"`): the text of each `documentation`
child, the last one winning. -/
def updateDoc (cur : String) (annotationKids : List XNode) : String :=
  annotationKids.foldl
    (fun acc n =>
      match n with
      | .elem _ "documentation" _ dk => textContent dk
      | _ => acc)
    cur

/-- The `Doc` a node list yields: every `annotation` child contributes. -/
def docFrom (kids : List XNode) : String :=
  kids.foldl
    (fun acc n =>
      match n with
      | .elem _ "annotation" _ ak => updateDoc acc ak
      | _ => acc)
    ""

/-! ## Reflective decoding of the leaf structures -/

/-- Decoding `*XSDInclude` (no `XMLName` field, one attribute). -/
def decodeXSDInclude (attrs : List (String × String × String)) : XSDInclude :=
  ⟨attrGetD attrs "schemaLocation"⟩

/-- Decoding `*XSDImport` (its `XMLName xml.Name` field carries the tag
`import`, which `encoding/xml` checks against the element's name). -/
def decodeXSDImport (sp ln : String) (attrs : List (String × String × String)) :
    Except DecodeErr XSDImport :=
  if ln ≠ "import" then .error (.nameMismatch "import" ln)
  else .ok ⟨(sp, ln), attrGetD attrs "schemaLocation", attrGetD attrs "namespace"⟩

/-- Decoding `*XSDAny` (tag `any` on its `XMLName`). -/
def decodeXSDAny (sp ln : String) (attrs : List (String × String × String))
    (kids : List XNode) : Except DecodeErr XSDAny :=
  if ln ≠ "any" then .error (.nameMismatch "any" ln)
  else .ok ⟨(sp, ln), docFrom kids, attrGetD attrs "minOccurs",
    attrGetD attrs "maxOccurs", attrGetD attrs "namespace",
    attrGetD attrs "processContents"⟩

/-- Decoding `XSDRestrictionValue` (no `XMLName` field: no name check). -/
def decodeXSDRestrictionValue (attrs : List (String × String × String))
    (kids : List XNode) : XSDRestrictionValue :=
  ⟨docFrom kids, attrGetD attrs "value"⟩

/-- Decoding `XSDRestriction`: the `base` attribute, repeated
`enumeration` children in order, and the single facet children (each a
plain struct of strings, so no failure is possible). -/
def decodeXSDRestriction (attrs : List (String × String × String))
    (kids : List XNode) : XSDRestriction :=
  kids.foldl
    (fun acc n =>
      match n with
      | .elem _ "enumeration" ca ck =>
        { acc with Enumeration := acc.Enumeration ++ [decodeXSDRestrictionValue ca ck] }
      | .elem _ "pattern" ca ck => { acc with Pattern := decodeXSDRestrictionValue ca ck }
      | .elem _ "minInclusive" ca ck =>
        { acc with MinInclusive := decodeXSDRestrictionValue ca ck }
      | .elem _ "maxInclusive" ca ck =>
        { acc with MaxInclusive := decodeXSDRestrictionValue ca ck }
      | .elem _ "whitespace" ca ck =>
        { acc with WhiteSpace := decodeXSDRestrictionValue ca ck }
      | .elem _ "length" ca ck => { acc with Length := decodeXSDRestrictionValue ca ck }
      | .elem _ "minLength" ca ck =>
        { acc with MinLength := decodeXSDRestrictionValue ca ck }
      | .elem _ "maxLength" ca ck =>
        { acc with MaxLength := decodeXSDRestrictionValue ca ck }
      | _ => acc)
    { zeroRestriction with Base := attrGetD attrs "base" }

end Gowsdl

namespace Gowsdl

def XSDComplexType.setXMLName : XSDComplexType → String × String → XSDComplexType
  | .mk _ ab n m s c a cc sc ats an, xn => .mk xn ab n m s c a cc sc ats an

def XSDComplexType.setAbstract : XSDComplexType → Bool → XSDComplexType
  | .mk xn _ n m s c a cc sc ats an, ab => .mk xn ab n m s c a cc sc ats an

def XSDComplexType.setName : XSDComplexType → String → XSDComplexType
  | .mk xn ab _ m s c a cc sc ats an, n => .mk xn ab n m s c a cc sc ats an

def XSDComplexType.setMixed : XSDComplexType → Bool → XSDComplexType
  | .mk xn ab n _ s c a cc sc ats an, m => .mk xn ab n m s c a cc sc ats an

/-- The attribute loop of `XSDComplexType.UnmarshalXML`: `mixed`, `name`
and `abstract` by local name (booleans by literal comparison with
`"true"`, so no parse failure), starting from a fresh complex type whose
`XMLName` is the start element's name. -/
def ctAttrs (sp ln : String) (attrs : List (String × String × String)) : XSDComplexType :=
  attrs.foldl
    (fun acc a =>
      if a.2.1 = "mixed" then acc.setMixed (a.2.2 = "true")
      else if a.2.1 = "name" then acc.setName a.2.2
      else if a.2.1 = "abstract" then acc.setAbstract (a.2.2 = "true")
      else acc)
    (zeroComplexType.setXMLName (sp, ln))

/-- The reflective attribute pass over an `element` start tag: `name`,
`nillable` (via `strconv.ParseBool`, whose failure is a decode error),
`type`, `ref`, `minOccurs`, `maxOccurs`. -/
def elementAttrsLoop : List (String × String × String) →
    String × Bool × String × String × String × String →
    Except DecodeErr (String × Bool × String × String × String × String)
  | [], acc => .ok acc
  | (_, al, av) :: rest, (n, nil, t, r, mi, ma) =>
    if al = "name" then elementAttrsLoop rest (av, nil, t, r, mi, ma)
    else if al = "nillable" then
      match parseBool av with
      | none => .error (.boolParseError av)
      | some b => elementAttrsLoop rest (n, b, t, r, mi, ma)
    else if al = "type" then elementAttrsLoop rest (n, nil, av, r, mi, ma)
    else if al = "ref" then elementAttrsLoop rest (n, nil, t, av, mi, ma)
    else if al = "minOccurs" then elementAttrsLoop rest (n, nil, t, r, av, ma)
    else if al = "maxOccurs" then elementAttrsLoop rest (n, nil, t, r, mi, av)
    else elementAttrsLoop rest (n, nil, t, r, mi, ma)

set_option maxHeartbeats 2000000 in
mutual

/-- Reflective decoding of an `element` node into `XSDElement` (tag
`element` on its `XMLName` field): attributes, then the child loop for
the local `complexType`/`simpleType`, `group`s and documentation. -/
def decodeXSDElement (sp ln : String) (attrs : List (String × String × String))
    (kids : List XNode) : Except DecodeErr XSDElement :=
  if ln ≠ "element" then .error (.nameMismatch "element" ln)
  else
    match elementAttrsLoop attrs ("", false, "", "", "", "") with
    | .error e => .error e
    | .ok (n, nil, t, r, mi, ma) =>
      match elementKidsLoop "" none none [] kids with
      | .error e => .error e
      | .ok (doc, ct, st, gs) => .ok (.mk (sp, ln) n doc nil t r mi ma ct st gs)
termination_by (sizeOf kids, 1)

/-- The child loop of the reflective `element` decode, accumulating the
`Doc`, the optional local `complexType` and `simpleType` (each match
overwriting the previous one) and the `group` list; unmatched children
are skipped. -/
def elementKidsLoop (doc : String) (ct : Option XSDComplexType)
    (st : Option XSDSimpleType) (gs : List XSDGroup) (kids : List XNode) :
    Except DecodeErr (String × Option XSDComplexType × Option XSDSimpleType × List XSDGroup) :=
  match kids with
  | [] => .ok (doc, ct, st, gs)
  | .txt _ :: rest => elementKidsLoop doc ct st gs rest
  | .elem csp cln ca ck :: rest =>
    if cln = "complexType" then
      match decodeXSDComplexType csp cln ca ck with
      | .error e => .error e
      | .ok c => elementKidsLoop doc (some c) st gs rest
    else if cln = "simpleType" then
      match decodeXSDSimpleType ca ck with
      | .error e => .error e
      | .ok s => elementKidsLoop doc ct (some s) gs rest
    else if cln = "group" then
      match decodeXSDGroup ca ck with
      | .error e => .error e
      | .ok g => elementKidsLoop doc ct st (gs ++ [g]) rest
    else if cln = "annotation" then
      elementKidsLoop (updateDoc doc ck) ct st gs rest
    else elementKidsLoop doc ct st gs rest
termination_by (sizeOf kids, 0)

/-- `XSDComplexType.UnmarshalXML`: the hand-written decoder.  No name
check (the method overrides the reflective path entirely); attributes by
local name, then the child loop. -/
def decodeXSDComplexType (sp ln : String) (attrs : List (String × String × String))
    (kids : List XNode) : Except DecodeErr XSDComplexType :=
  decodeCTKids (ctAttrs sp ln attrs) kids
termination_by (sizeOf kids, 1)

/-- The token loop of `XSDComplexType.UnmarshalXML`: children outside the
schema namespace are skipped (`d.Skip()`), then `attribute`, `sequence`
(via `unmarshalSequence`), `choice` (via `unmarshalChoice`, flattened
into `ct.Choice`), `all` — where the source passes the complexType's own
start element `&start` to `DecodeElement`, so the `XMLName xml:"all"`
check compares against the *complexType's* element name —
`complexContent` and `simpleContent`; unknown schema children are
skipped. -/
def decodeCTKids (ct : XSDComplexType) (kids : List XNode) :
    Except DecodeErr XSDComplexType :=
  match kids with
  | [] => .ok ct
  | .txt _ :: rest => decodeCTKids ct rest
  | .elem csp cln ca ck :: rest =>
    if csp ≠ xmlschema11 then decodeCTKids ct rest
    else if cln = "attribute" then
      match decodeXSDAttribute ca ck with
      | .error e => .error e
      | .ok a => decodeCTKids (ct.setAttributes (ct.Attributes ++ [a])) rest
    else if cln = "sequence" then
      match decodeSequenceKids ct ck with
      | .error e => .error e
      | .ok ct' => decodeCTKids ct' rest
    else if cln = "choice" then
      match decodeChoiceElems csp cln ca ck with
      | .error e => .error e
      | .ok els => decodeCTKids (ct.setChoice (ct.Choice ++ els)) rest
    else if cln = "all" then
      match decodeXSDAllType ct.XMLName.2 ck with
      | .error e => .error e
      | .ok x => decodeCTKids (ct.setAll (ct.All ++ x.Elements)) rest
    else if cln = "complexContent" then
      match decodeXSDComplexContent csp cln ca ck with
      | .error e => .error e
      | .ok cc => decodeCTKids (ct.setComplexContent cc) rest
    else if cln = "simpleContent" then
      match decodeXSDSimpleContent csp cln ca ck with
      | .error e => .error e
      | .ok sc => decodeCTKids (ct.setSimpleContent sc) rest
    else decodeCTKids ct rest
termination_by (sizeOf kids, 0)

/-- `unmarshalSequence`: the hand-written loop over a `sequence`'s
children.  Non-schema children are skipped; `element` children are
appended to `ct.Sequence`; a nested `choice` is flattened into
`ct.Sequence` via `unmarshalChoice`; `any` children are collected into
`ct.Any`; unknown schema children are skipped. -/
def decodeSequenceKids (ct : XSDComplexType) (kids : List XNode) :
    Except DecodeErr XSDComplexType :=
  match kids with
  | [] => .ok ct
  | .txt _ :: rest => decodeSequenceKids ct rest
  | .elem csp cln ca ck :: rest =>
    if csp ≠ xmlschema11 then decodeSequenceKids ct rest
    else if cln = "element" then
      match decodeXSDElement csp cln ca ck with
      | .error e => .error e
      | .ok x => decodeSequenceKids (ct.setSequence (ct.Sequence ++ [x])) rest
    else if cln = "choice" then
      match decodeChoiceElems csp cln ca ck with
      | .error e => .error e
      | .ok els => decodeSequenceKids (ct.setSequence (ct.Sequence ++ els)) rest
    else if cln = "any" then
      match decodeXSDAny csp cln ca ck with
      | .error e => .error e
      | .ok x => decodeSequenceKids (ct.setAny (ct.Any ++ [x])) rest
    else decodeSequenceKids ct rest
termination_by (sizeOf kids, 0)

/-- `unmarshalChoice`: decode the `choice` element into an
`XSDChoiceType` and, when the choice carries a non-empty `minOccurs`,
assign that value as the `MinOccurs` of every contained element; the
contained elements are returned (the callers append them to a particle
list). -/
def decodeChoiceElems (sp ln : String) (attrs : List (String × String × String))
    (kids : List XNode) : Except DecodeErr (List XSDElement) :=
  match decodeXSDChoiceType sp ln attrs kids with
  | .error e => .error e
  | .ok x =>
    .ok (if x.MinOccurs ≠ "" then x.Elements.map (fun e => e.setMinOccurs x.MinOccurs)
         else x.Elements)
termination_by (sizeOf kids, 3)

/-- Reflective decoding of a `choice` node into `XSDChoiceType` (tag
`choice` on its `XMLName`): `name` and `minOccurs` attributes, then its
`element` children in document order. -/
def decodeXSDChoiceType (sp ln : String) (attrs : List (String × String × String))
    (kids : List XNode) : Except DecodeErr XSDChoiceType :=
  if ln ≠ "choice" then .error (.nameMismatch "choice" ln)
  else
    choiceKidsLoop
      ⟨(sp, ln), attrGetD attrs "name", attrGetD attrs "minOccurs", []⟩ kids
termination_by (sizeOf kids, 1)

/-- The `element` children of a `choice`, in document order. -/
def choiceKidsLoop (x : XSDChoiceType) (kids : List XNode) :
    Except DecodeErr XSDChoiceType :=
  match kids with
  | [] => .ok x
  | .txt _ :: rest => choiceKidsLoop x rest
  | .elem csp cln ca ck :: rest =>
    if cln = "element" then
      match decodeXSDElement csp cln ca ck with
      | .error e => .error e
      | .ok e => choiceKidsLoop { x with Elements := x.Elements ++ [e] } rest
    else choiceKidsLoop x rest
termination_by (sizeOf kids, 0)

/-- Reflective decoding into `XSDAllType`, whose `XMLName` carries the
tag `all`: `encoding/xml` first checks the start element's local name
against that tag.  The complexType decoder hands it the *complexType's*
start element (the `&start` argument in the source), so at that call
site this check always fails. -/
def decodeXSDAllType (ln : String) (kids : List XNode) :
    Except DecodeErr XSDAllType :=
  if ln ≠ "all" then .error (.nameMismatch "all" ln)
  else allKidsLoop ⟨("", ln), []⟩ kids
termination_by (sizeOf kids, 1)

/-- The `element` children of an `all`, in document order. -/
def allKidsLoop (x : XSDAllType) (kids : List XNode) :
    Except DecodeErr XSDAllType :=
  match kids with
  | [] => .ok x
  | .txt _ :: rest => allKidsLoop x rest
  | .elem csp cln ca ck :: rest =>
    if cln = "element" then
      match decodeXSDElement csp cln ca ck with
      | .error e => .error e
      | .ok e => allKidsLoop { x with Elements := x.Elements ++ [e] } rest
    else allKidsLoop x rest
termination_by (sizeOf kids, 0)

/-- Reflective decoding of an `attribute` node (no `XMLName` field, so no
name check): its string attributes, the optional inline `simpleType`, and
documentation. -/
def decodeXSDAttribute (attrs : List (String × String × String))
    (kids : List XNode) : Except DecodeErr XSDAttribute :=
  match attributeKidsLoop "" none kids with
  | .error e => .error e
  | .ok (doc, st) =>
    .ok (.mk doc (attrGetD attrs "name") (attrGetD attrs "ref")
      (attrGetD attrs "type") (attrGetD attrs "use") (attrGetD attrs "fixed") st)
termination_by (sizeOf kids, 1)

/-- The child loop of the `attribute` decode. -/
def attributeKidsLoop (doc : String) (st : Option XSDSimpleType)
    (kids : List XNode) :
    Except DecodeErr (String × Option XSDSimpleType) :=
  match kids with
  | [] => .ok (doc, st)
  | .txt _ :: rest => attributeKidsLoop doc st rest
  | .elem _ cln ca ck :: rest =>
    if cln = "simpleType" then
      match decodeXSDSimpleType ca ck with
      | .error e => .error e
      | .ok s => attributeKidsLoop doc (some s) rest
    else if cln = "annotation" then attributeKidsLoop (updateDoc doc ck) st rest
    else attributeKidsLoop doc st rest
termination_by (sizeOf kids, 0)

/-- Reflective decoding of a `simpleType` node (no `XMLName` field): the
`name` attribute, documentation, the `restriction`, `list` and `union`
children, and the `final` child element's text. -/
def decodeXSDSimpleType (attrs : List (String × String × String))
    (kids : List XNode) : Except DecodeErr XSDSimpleType :=
  match simpleTypeKidsLoop "" zeroRestriction zeroList zeroUnion "" kids with
  | .error e => .error e
  | .ok (doc, r, l, u, f) => .ok (.mk (attrGetD attrs "name") doc r l u f)
termination_by (sizeOf kids, 1)

/-- The child loop of the `simpleType` decode. -/
def simpleTypeKidsLoop (doc : String) (r : XSDRestriction) (l : XSDList)
    (u : XSDUnion) (f : String) (kids : List XNode) :
    Except DecodeErr (String × XSDRestriction × XSDList × XSDUnion × String) :=
  match kids with
  | [] => .ok (doc, r, l, u, f)
  | .txt _ :: rest => simpleTypeKidsLoop doc r l u f rest
  | .elem _ cln ca ck :: rest =>
    if cln = "restriction" then
      simpleTypeKidsLoop doc (decodeXSDRestriction ca ck) l u f rest
    else if cln = "list" then
      match decodeXSDList ca ck with
      | .error e => .error e
      | .ok l' => simpleTypeKidsLoop doc r l' u f rest
    else if cln = "union" then
      match decodeXSDUnion ca ck with
      | .error e => .error e
      | .ok u' => simpleTypeKidsLoop doc r l u' f rest
    else if cln = "final" then simpleTypeKidsLoop doc r l u (textContent ck) rest
    else if cln = "annotation" then simpleTypeKidsLoop (updateDoc doc ck) r l u f rest
    else simpleTypeKidsLoop doc r l u f rest
termination_by (sizeOf kids, 0)

/-- Reflective decoding of a `list` node: `itemType` attribute, optional
inline `simpleType`, documentation. -/
def decodeXSDList (attrs : List (String × String × String)) (kids : List XNode) :
    Except DecodeErr XSDList :=
  match listKidsLoop "" none kids with
  | .error e => .error e
  | .ok (doc, st) => .ok (.mk doc (attrGetD attrs "itemType") st)
termination_by (sizeOf kids, 1)

/-- The child loop of the `list` decode. -/
def listKidsLoop (doc : String) (st : Option XSDSimpleType) (kids : List XNode) :
    Except DecodeErr (String × Option XSDSimpleType) :=
  match kids with
  | [] => .ok (doc, st)
  | .txt _ :: rest => listKidsLoop doc st rest
  | .elem _ cln ca ck :: rest =>
    if cln = "simpleType" then
      match decodeXSDSimpleType ca ck with
      | .error e => .error e
      | .ok s => listKidsLoop doc (some s) rest
    else if cln = "annotation" then listKidsLoop (updateDoc doc ck) st rest
    else listKidsLoop doc st rest
termination_by (sizeOf kids, 0)

/-- Reflective decoding of a `union` node: `memberTypes` attribute and
repeated inline `simpleType` children. -/
def decodeXSDUnion (attrs : List (String × String × String)) (kids : List XNode) :
    Except DecodeErr XSDUnion :=
  match unionKidsLoop [] kids with
  | .error e => .error e
  | .ok sts => .ok (.mk sts (attrGetD attrs "memberTypes"))
termination_by (sizeOf kids, 1)

/-- The repeated `simpleType` children of a `union`, in order. -/
def unionKidsLoop (sts : List XSDSimpleType) (kids : List XNode) :
    Except DecodeErr (List XSDSimpleType) :=
  match kids with
  | [] => .ok sts
  | .txt _ :: rest => unionKidsLoop sts rest
  | .elem _ cln ca ck :: rest =>
    if cln = "simpleType" then
      match decodeXSDSimpleType ca ck with
      | .error e => .error e
      | .ok s => unionKidsLoop (sts ++ [s]) rest
    else unionKidsLoop sts rest
termination_by (sizeOf kids, 0)

/-- The `element` grandchildren reached through a one-step path tag such
as `sequence>element` or `choice>element`: the `element` children of one
intermediate node, appended in document order. -/
def pathElemsLoop (acc : List XSDElement) (kids : List XNode) :
    Except DecodeErr (List XSDElement) :=
  match kids with
  | [] => .ok acc
  | .txt _ :: rest => pathElemsLoop acc rest
  | .elem csp cln ca ck :: rest =>
    if cln = "element" then
      match decodeXSDElement csp cln ca ck with
      | .error e => .error e
      | .ok e => pathElemsLoop (acc ++ [e]) rest
    else pathElemsLoop acc rest
termination_by (sizeOf kids, 0)

/-- Reflective decoding of a `group` node (no `XMLName` field): `name`
and `ref` attributes and the three path-tagged particle lists
`sequence>element`, `choice>element`, `all>element`. -/
def decodeXSDGroup (attrs : List (String × String × String)) (kids : List XNode) :
    Except DecodeErr XSDGroup :=
  match groupKidsLoop [] [] [] kids with
  | .error e => .error e
  | .ok (s, c, a) =>
    .ok (.mk (attrGetD attrs "name") (attrGetD attrs "ref") s c a)
termination_by (sizeOf kids, 2)

/-- The child loop of the `group` decode, walking each `sequence`,
`choice` and `all` child's `element` children. -/
def groupKidsLoop (s c a : List XSDElement) (kids : List XNode) :
    Except DecodeErr (List XSDElement × List XSDElement × List XSDElement) :=
  match kids with
  | [] => .ok (s, c, a)
  | .txt _ :: rest => groupKidsLoop s c a rest
  | .elem _ cln _ ck :: rest =>
    if cln = "sequence" then
      match pathElemsLoop s ck with
      | .error e => .error e
      | .ok s' => groupKidsLoop s' c a rest
    else if cln = "choice" then
      match pathElemsLoop c ck with
      | .error e => .error e
      | .ok c' => groupKidsLoop s c' a rest
    else if cln = "all" then
      match pathElemsLoop a ck with
      | .error e => .error e
      | .ok a' => groupKidsLoop s c a' rest
    else groupKidsLoop s c a rest
termination_by (sizeOf kids, 0)

/-- Reflective decoding of a `complexContent` node (tag `complexContent`
on its `XMLName`): its `extension` child. -/
def decodeXSDComplexContent (sp ln : String)
    (attrs : List (String × String × String)) (kids : List XNode) :
    Except DecodeErr XSDComplexContent :=
  if ln ≠ "complexContent" then .error (.nameMismatch "complexContent" ln)
  else
    match contentKidsLoop zeroExtension kids with
    | .error e => .error e
    | .ok ext => .ok (.mk (sp, ln) ext)
termination_by (sizeOf kids, 2)

/-- Reflective decoding of a `simpleContent` node (tag `simpleContent`). -/
def decodeXSDSimpleContent (sp ln : String)
    (attrs : List (String × String × String)) (kids : List XNode) :
    Except DecodeErr XSDSimpleContent :=
  if ln ≠ "simpleContent" then .error (.nameMismatch "simpleContent" ln)
  else
    match contentKidsLoop zeroExtension kids with
    | .error e => .error e
    | .ok ext => .ok (.mk (sp, ln) ext)
termination_by (sizeOf kids, 2)

/-- The `extension` children of a `complexContent`/`simpleContent`, the
last one winning. -/
def contentKidsLoop (ext : XSDExtension) (kids : List XNode) :
    Except DecodeErr XSDExtension :=
  match kids with
  | [] => .ok ext
  | .txt _ :: rest => contentKidsLoop ext rest
  | .elem csp cln ca ck :: rest =>
    if cln = "extension" then
      match decodeXSDExtension csp cln ca ck with
      | .error e => .error e
      | .ok ext' => contentKidsLoop ext' rest
    else contentKidsLoop ext rest
termination_by (sizeOf kids, 0)

/-- Reflective decoding of an `extension` node (tag `extension`): the
`base` attribute, `attribute` children, and the path-tagged lists
`sequence>element` (into `Sequence`), `choice>element` (into `Choice`)
and `sequence>choice>element` (into `SequenceChoice`). -/
def decodeXSDExtension (sp ln : String)
    (attrs : List (String × String × String)) (kids : List XNode) :
    Except DecodeErr XSDExtension :=
  if ln ≠ "extension" then .error (.nameMismatch "extension" ln)
  else
    match extKidsLoop [] [] [] [] kids with
    | .error e => .error e
    | .ok (ats, s, c, sc) =>
      .ok (.mk (sp, ln) (attrGetD attrs "base") ats s c sc)
termination_by (sizeOf kids, 1)

/-- The child loop of the `extension` decode: `attribute` children are
decoded and appended; a `sequence` child contributes its `element`
children to `Sequence` and, through each of its `choice` children, their
`element` children to `SequenceChoice`; a `choice` child contributes its
`element` children to `Choice`. -/
def extKidsLoop (ats : List XSDAttribute) (s c sc : List XSDElement)
    (kids : List XNode) :
    Except DecodeErr (List XSDAttribute × List XSDElement × List XSDElement × List XSDElement) :=
  match kids with
  | [] => .ok (ats, s, c, sc)
  | .txt _ :: rest => extKidsLoop ats s c sc rest
  | .elem _ cln ca ck :: rest =>
    if cln = "attribute" then
      match decodeXSDAttribute ca ck with
      | .error e => .error e
      | .ok a => extKidsLoop (ats ++ [a]) s c sc rest
    else if cln = "sequence" then
      match pathElemsLoop s ck with
      | .error e => .error e
      | .ok s' =>
        match seqChoiceLoop sc ck with
        | .error e => .error e
        | .ok sc' => extKidsLoop ats s' c sc' rest
    else if cln = "choice" then
      match pathElemsLoop c ck with
      | .error e => .error e
      | .ok c' => extKidsLoop ats s c' sc rest
    else extKidsLoop ats s c sc rest
termination_by (sizeOf kids, 0)

/-- The `choice` children of a `sequence` child, each contributing its
`element` children (the `sequence>choice>element` path). -/
def seqChoiceLoop (acc : List XSDElement) (kids : List XNode) :
    Except DecodeErr (List XSDElement) :=
  match kids with
  | [] => .ok acc
  | .txt _ :: rest => seqChoiceLoop acc rest
  | .elem _ cln _ ck :: rest =>
    if cln = "choice" then
      match pathElemsLoop acc ck with
      | .error e => .error e
      | .ok acc' => seqChoiceLoop acc' rest
    else seqChoiceLoop acc rest
termination_by (sizeOf kids, 1)

end

end Gowsdl

namespace Gowsdl

/-- The attribute pass of `XSDSchema.UnmarshalXML`: attributes in the
`xmlns` space populate the prefix map; `version`, `targetNamespace` and
`elementFormDefault` are matched by local name; everything else is
ignored.  (The `Tns`/`Xs` tag fields of the Go struct are never assigned
by the hand-written decoder and stay empty.) -/
def schemaAttrs (sp ln : String) (attrs : List (String × String × String)) : XSDSchema :=
  attrs.foldl
    (fun s a =>
      if a.1 = "xmlns" then { s with Xmlns := setA s.Xmlns a.2.1 a.2.2 }
      else if a.2.1 = "version" then { s with Version := a.2.2 }
      else if a.2.1 = "targetNamespace" then { s with TargetNamespace := a.2.2 }
      else if a.2.1 = "elementFormDefault" then { s with ElementFormDefault := a.2.2 }
      else s)
    { emptyXSDSchema with XMLName := (sp, ln) }

/-- The token loop of `XSDSchema.UnmarshalXML`: any child outside the
schema namespace is skipped; `include`, `import`, `element`,
`attribute`, `complexType` and `simpleType` children are decoded and
appended in document order; any other schema-namespace child is
skipped. -/
def decodeSchemaKids (s : XSDSchema) (kids : List XNode) : Except DecodeErr XSDSchema :=
  match kids with
  | [] => .ok s
  | .txt _ :: rest => decodeSchemaKids s rest
  | .elem csp cln ca ck :: rest =>
    if csp ≠ xmlschema11 then decodeSchemaKids s rest
    else if cln = "include" then
      decodeSchemaKids { s with Includes := s.Includes ++ [decodeXSDInclude ca] } rest
    else if cln = "import" then
      match decodeXSDImport csp cln ca with
      | .error e => .error e
      | .ok x => decodeSchemaKids { s with Imports := s.Imports ++ [x] } rest
    else if cln = "element" then
      match decodeXSDElement csp cln ca ck with
      | .error e => .error e
      | .ok x => decodeSchemaKids { s with Elements := s.Elements ++ [x] } rest
    else if cln = "attribute" then
      match decodeXSDAttribute ca ck with
      | .error e => .error e
      | .ok x => decodeSchemaKids { s with Attributes := s.Attributes ++ [x] } rest
    else if cln = "complexType" then
      match decodeXSDComplexType csp cln ca ck with
      | .error e => .error e
      | .ok x => decodeSchemaKids { s with ComplexTypes := s.ComplexTypes ++ [x] } rest
    else if cln = "simpleType" then
      match decodeXSDSimpleType ca ck with
      | .error e => .error e
      | .ok x => decodeSchemaKids { s with SimpleType := s.SimpleType ++ [x] } rest
    else decodeSchemaKids s rest

/-- `XSDSchema.UnmarshalXML` over a parsed element node. -/
def decodeXSDSchema (sp ln : String) (attrs : List (String × String × String))
    (kids : List XNode) : Except DecodeErr XSDSchema :=
  decodeSchemaKids (schemaAttrs sp ln attrs) kids

/-- `xml.Unmarshal(data, new(XSDSchema))` over a token stream: lex the
stream into a forest (token errors are the unreadable-input failures),
find the root element, and run the schema decoder on it.  The two error
classes are kept apart in the result. -/
def xmlUnmarshalSchema (ts : List XTok) : Except XMLErr XSDSchema :=
  match buildForest ts with
  | .error e => .error (.tok e)
  | .ok forest =>
    match firstElemNode forest with
    | none => .error (.tok .noRootElement)
    | some (sp, ln, attrs, kids) =>
      match decodeXSDSchema sp ln attrs kids with
      | .error e => .error (.dec e)
      | .ok s => .ok s

/-- A token stream is a well-formed document when it lexes into a forest
with a root element: exactly the inputs on which reading the underlying
byte stream never fails. -/
def wellFormedDoc (ts : List XTok) : Prop :=
  ∃ f n, buildForest ts = .ok f ∧ firstElemNode f = some n

end Gowsdl


namespace Gowsdl

/-- A node `<xsd:element name="n"/>`. -/
def sampleElemNode (n : String) : XNode :=
  .elem xmlschema11 "element" [("", "name", n)] []

/-- The `XSDElement` that `sampleElemNode n` decodes to. -/
def sampleElem (n : String) : XSDElement :=
  .mk (xmlschema11, "element") n "" false "" "" "" "" none none []

/-- The `XSDChoiceType` for `<xsd:choice minOccurs="0">` with elements
`b` and `c`. -/
def sampleChoiceType : XSDChoiceType :=
  ⟨(xmlschema11, "choice"), "", "0", [sampleElem "b", sampleElem "c"]⟩

/-- A well-formed stream whose one recognized child (`element`) carries an
invalid `nillable` boolean. -/
def badNillableToks : List XTok :=
  [.tstart xmlschema11 "schema" [],
   .tstart xmlschema11 "element" [("", "name", "top"), ("", "nillable", "yes")],
   .tend, .tend]

end Gowsdl

/-! ## Theorems -/


namespace Gowsdl

theorem char_upperAux : ∀ n : Nat, n < 123 → ((Char.ofNat n).isAlpha = true → ((Char.ofNat n).toUpper).isUpper = true) := by decide

theorem char_toUpper_isUpper (c : Char) (h : c.isAlpha = true) : (c.toUpper).isUpper = true := by
  have hb : c.toNat < 123 := by
    rcases Bool.or_eq_true _ _ |>.mp h with hu | hl
    · simp only [Char.isUpper, Bool.and_eq_true, decide_eq_true_eq] at hu
      have := UInt32.toNat_le_of_le (n := c.val) (m := 90) (by decide) hu.2
      simp only [Char.toNat]
      omega
    · simp only [Char.isLower, Bool.and_eq_true, decide_eq_true_eq] at hl
      have := UInt32.toNat_le_of_le (n := c.val) (m := 122) (by decide) hl.2
      simp only [Char.toNat]
      omega
  have := char_upperAux c.toNat hb
  rw [Char.ofNat_toNat] at this
  exact this h

/-- C1: `toGoType` returns an optional (pointer-wrapped) type exactly when
`nillable` is true or `minOccurs` is the literal string `"0"`; any other
`minOccurs` value (absent, `"1"`, `"5"`, ...) yields the required
(unwrapped) type, which always differs from the wrapped one. -/
theorem toGoType_optionality (g : GoWSDL) (xsdType : String) (nillable : Bool)
    (minOccurs : String) :
    toGoType g xsdType nillable minOccurs
      = ((toGoTypeCore g xsdType).1,
         if nillable = true ∨ minOccurs = "0" then "*" ++ (toGoTypeCore g xsdType).2
         else (toGoTypeCore g xsdType).2)
    ∧ "*" ++ (toGoTypeCore g xsdType).2 ≠ (toGoTypeCore g xsdType).2 := by
  constructor
  · unfold toGoType
    by_cases h : nillable = true ∨ minOccurs = "0"
    · rcases h with h | h <;> simp [h]
    · push_neg at h
      have h1 : nillable = false := by
        cases nillable
        · rfl
        · exact absurd rfl h.1
      simp [h1, h.2]
  · intro hcontra
    have h2 := congrArg String.data hcontra
    rw [String.data_append] at h2
    exact List.cons_ne_self _ _ h2

theorem lookupA_setA {α : Type} (m : List (String × α)) (k k' : String) (v : α) :
    lookupA (setA m k v) k' = if k = k' then some v else lookupA m k' := by
  induction m with
  | nil => simp [setA, lookupA]
  | cons p rest ih =>
    obtain ⟨k0, v0⟩ := p
    by_cases h1 : k0 = k <;> by_cases h2 : k = k' <;> by_cases h3 : k0 = k' <;>
      simp_all [setA, lookupA]

theorem importsNodup_update (g : GoWSDL) (L : List String) (h : importsNodup g)
    (hL : L.Nodup) :
    importsNodup { g with imports := setA g.imports g.currentNamespace L } := by
  intro ns l hl
  simp only at hl
  rw [lookupA_setA] at hl
  split at hl
  · cases hl; exact hL
  · exact h _ _ hl

theorem toGoTypeCore_importsNodup (g : GoWSDL) (x : String) (h : importsNodup g) :
    importsNodup (toGoTypeCore g x).1 := by
  unfold toGoTypeCore
  dsimp only
  repeat' split
  all_goals first
    | exact h
    | (rename_i pkgList heq hmem
       refine importsNodup_update g _ h ?_
       have hnd := h _ _ heq
       rw [List.nodup_append]
       refine ⟨hnd, List.nodup_singleton _, ?_⟩
       intro a ha hb
       rw [List.mem_singleton] at hb
       subst hb
       exact hmem ha)
    | exact importsNodup_update g _ h (by simp)

/-- C8: import recording is idempotent per namespace: any sequence of
type-mapper calls preserves the invariant that every namespace's
recorded import list is duplicate-free, so a package ends up listed at
most once per namespace no matter how many references record it. -/
theorem recordImport_idempotent (g : GoWSDL) (refs : List (String × Bool × String))
    (h : importsNodup g) : importsNodup (runRefs g refs) := by
  induction refs generalizing g with
  | nil => exact h
  | cons r rest ih =>
    simp only [runRefs, List.foldl_cons]
    exact ih _ (toGoTypeCore_importsNodup g r.1 h)

theorem lookupA_mem_values {α : Type} (m : List (String × α)) (k : String) (v : α)
    (h : lookupA m k = some v) : v ∈ m.map Prod.snd := by
  induction m with
  | nil => simp [lookupA] at h
  | cons p rest ih =>
    obtain ⟨k0, v0⟩ := p
    rw [lookupA] at h
    split at h
    · cases h; simp
    · simpa using Or.inr (ih h)

/-- C10: a reference whose lower-cased local name is in the built-in
table maps to the table's type (pointer-wrapped only per the optionality
rule) and leaves the router state completely unchanged; the state can
change at all only for a non-built-in, prefix-qualified reference whose
resolved namespace differs from the one being generated and has a
configured package. -/
theorem toGoType_builtin_frame (g : GoWSDL) (x : String) (n : Bool) (m : String) :
    (∀ v, lookupA xsd2GoTypes (goToLower (removeNS x)) = some v →
        toGoType g x n m = (g, if n = true ∨ m = "0" then "*" ++ v else v))
    ∧ ((toGoType g x n m).1 ≠ g →
        lookupA xsd2GoTypes (goToLower (removeNS x)) = none
        ∧ (goSplit x ':').length = 2
        ∧ getNSFromMap g ((goSplit x ':').getD 0 "") ≠ g.currentNamespace
        ∧ getNSPackage g (getNSFromMap g ((goSplit x ':').getD 0 "")) ≠ "") := by
  have hpart1 : ∀ v, lookupA xsd2GoTypes (goToLower (removeNS x)) = some v →
      toGoType g x n m = (g, if n = true ∨ m = "0" then "*" ++ v else v) := by
    intro v hv
    have hne : v ≠ "" := by
      have hmem := lookupA_mem_values _ _ _ hv
      have hall : ∀ w ∈ xsd2GoTypes.map Prod.snd, w ≠ "" := by decide
      exact hall v hmem
    unfold removeNS at hv
    unfold toGoType toGoTypeCore
    dsimp only
    rw [hv]
    simp only [Option.getD_some]
    rw [if_neg hne]
    by_cases hc : n = true ∨ m = "0"
    · rcases hc with hc | hc <;> simp [hc]
    · push_neg at hc
      have h1 : n = false := by
        cases n
        · rfl
        · exact absurd rfl hc.1
      simp [h1, hc.2]
  refine ⟨hpart1, ?_⟩
  intro hneq
  cases hl : lookupA xsd2GoTypes (goToLower (removeNS x)) with
  | some v =>
    exact absurd (congrArg Prod.fst (hpart1 v hl)) hneq
  | none =>
    have hl' := hl
    unfold removeNS at hl'
    refine ⟨rfl, ?_⟩
    by_cases h2 : (goSplit x ':').length = 2
    · refine ⟨h2, ?_⟩
      by_cases h3 : getNSFromMap g ((goSplit x ':').getD 0 "") ≠ g.currentNamespace
      · refine ⟨h3, ?_⟩
        by_cases h4 : getNSPackage g (getNSFromMap g ((goSplit x ':').getD 0 "")) ≠ ""
        · exact h4
        · exfalso
          apply hneq
          unfold toGoType toGoTypeCore
          dsimp only
          rw [hl']
          simp only [Option.getD_none]
          rw [if_pos trivial, if_pos h2, if_pos h3]
          push_neg at h4
          rw [if_neg (by simpa using h4)]
      · exfalso
        apply hneq
        unfold toGoType toGoTypeCore
        dsimp only
        rw [hl']
        simp only [Option.getD_none]
        rw [if_pos trivial, if_pos h2, if_neg (by simpa using h3)]
    · exfalso
      apply hneq
      unfold toGoType toGoTypeCore
      dsimp only
      rw [hl']
      simp only [Option.getD_none]
      rw [if_pos trivial, if_neg h2]

/-- C9 counterexample: `"_x"` is non-empty and in neither table, yet
`makePublic "_x" = "_x"` and its leading character `_` is not
upper-case, so sanitization does not always return an identifier with an
upper-case leading character. -/
theorem makePublic_underscore_cex :
    ("_x" : String) ≠ "" ∧ isBasicType "_x" = false ∧ lookupA reservedWords "_x" = none
      ∧ makePublic "_x" = "_x" ∧ Char.isUpper '_' = false := by
  refine ⟨by decide, by decide, by decide, by decide, by decide⟩

/-- C9 (amended): for every non-empty identifier not matched by the
basic-types table, `makePublic` returns the identifier with its leading
character sent through `Char.toUpper`; when that leading character is a
letter, the result's leading character is upper-case. -/
theorem makePublic_capitalizes (id : String) (h1 : id ≠ "")
    (h2 : isBasicType id = false) :
    (makePublic id = (match id.toList with
        | [] => id
        | c :: cs => String.mk (c.toUpper :: cs)))
    ∧ ((id.toList.headD ' ').isAlpha = true →
        ((makePublic id).toList.headD ' ').isUpper = true) := by
  have hlist : ∃ c cs, id.toList = c :: cs := by
    cases hid : id.toList with
    | nil =>
      exfalso
      apply h1
      have : id.data = [] := hid
      cases id
      simp_all
    | cons c cs => exact ⟨c, cs, rfl⟩
  obtain ⟨c, cs, hcs⟩ := hlist
  have heq : makePublic id = String.mk (c.toUpper :: cs) := by
    unfold makePublic
    rw [if_neg (by simp [h2]), if_neg h1, hcs]
  constructor
  · rw [heq, hcs]
  · intro halpha
    rw [hcs] at halpha
    simp only [List.headD] at halpha
    rw [heq]
    simpa using char_toUpper_isUpper c halpha

theorem makePublic_capitalizes_witness :
    (makePublic "abc" = (match ("abc" : String).toList with
        | [] => "abc"
        | c :: cs => String.mk (c.toUpper :: cs)))
    ∧ ((("abc" : String).toList.headD ' ').isAlpha = true →
        ((makePublic "abc").toList.headD ' ').isUpper = true) :=
  makePublic_capitalizes "abc" (by decide) (by decide)

theorem recordImport_idempotent_witness :
    importsNodup (runRefs ⟨"urn:cur", [("ext", "urn:ext")], [("urn:ext", "extpkg")], []⟩
      [("ext:T", false, "1"), ("ext:U", false, "0"), ("ext:T", true, "1")]) :=
  recordImport_idempotent _ _ (by intro ns l hl; simp [lookupA] at hl)

theorem toGoType_builtin_frame_witness :
    toGoType ⟨"urn:cur", [("ext", "urn:ext")], [("urn:ext", "extpkg")], []⟩
        "xsd:dateTime" false "0"
      = (⟨"urn:cur", [("ext", "urn:ext")], [("urn:ext", "extpkg")], []⟩,
         if false = true ∨ "0" = "0" then "*" ++ "soap.XSDDateTime" else "soap.XSDDateTime")
    ∧ ((toGoType ⟨"urn:cur", [("ext", "urn:ext")], [("urn:ext", "extpkg")], []⟩
          "ext:T" false "1").1
        ≠ ⟨"urn:cur", [("ext", "urn:ext")], [("urn:ext", "extpkg")], []⟩ →
        lookupA xsd2GoTypes (goToLower (removeNS "ext:T")) = none
        ∧ (goSplit "ext:T" ':').length = 2
        ∧ getNSFromMap ⟨"urn:cur", [("ext", "urn:ext")], [("urn:ext", "extpkg")], []⟩
            ((goSplit "ext:T" ':').getD 0 "")
          ≠ "urn:cur"
        ∧ getNSPackage ⟨"urn:cur", [("ext", "urn:ext")], [("urn:ext", "extpkg")], []⟩
            (getNSFromMap ⟨"urn:cur", [("ext", "urn:ext")], [("urn:ext", "extpkg")], []⟩
              ((goSplit "ext:T" ':').getD 0 ""))
          ≠ "") :=
  ⟨(toGoType_builtin_frame _ "xsd:dateTime" false "0").1 "soap.XSDDateTime" (by decide),
   (toGoType_builtin_frame _ "ext:T" false "1").2⟩

end Gowsdl


namespace Gowsdl

/-- C2: for every two-document include cycle — a root schema `A` at `LA`
whose include resolves to `LB`, serving `B`, whose include resolves back
to `LA` — resolution terminates and produces exactly `[A, B]`, each
location fetched and decoded exactly once (the fetch log is
`[LB, LA]`): the canonical resolved-location visited set, not namespace
identity (the namespaces are unconstrained here), breaks the cycle. -/
theorem resolve_include_cycle (env : ResolveEnv) (A B : XSDSchema)
    (LA LB refAB refBA : String)
    (hAinc : A.Includes = [⟨refAB⟩]) (hAimp : A.Imports = [])
    (hBinc : B.Includes = [⟨refBA⟩]) (hBimp : B.Imports = [])
    (hpA : env.parse LA refAB = some LB) (hpB : env.parse LB refBA = some LA)
    (hwA : env.world LA = some A) (hwB : env.world LB = some B)
    (hne : LA ≠ LB) (hpkg : env.nsToPkg = []) :
    resolveXSDExternals env initResolveState A LA
      = (⟨[LB, LA], 2, [LB, LA], [LB, LA]⟩, .ok [A, B]) := by
  simp [resolveXSDExternals, resolveXSDExternalsF, resolveImportsLoop,
    resolveIncludesLoop, downloadExt, initResolveState, maxRecursion,
    hAinc, hAimp, hBinc, hBimp, hpA, hpB, hwA, hwB, hne, hpkg]


theorem resolve_include_cycle_witness :
    resolveXSDExternals cycleEnv initResolveState cycleSchemaA "LA"
      = (⟨["LB", "LA"], 2, ["LB", "LA"], ["LB", "LA"]⟩,
         .ok [cycleSchemaA, cycleSchemaB]) :=
  resolve_include_cycle cycleEnv cycleSchemaA cycleSchemaB "LA" "LB" "b.xsd" "a.xsd"
    rfl rfl rfl rfl rfl rfl rfl rfl (by decide) rfl


/-- C7: in multi-package mode (non-empty namespace-to-package mapping), a
schema whose target namespace has no configured package is fatal: a root
schema aborts the unmarshal loop immediately (state untouched, nothing
fetched) with the `no package mapping for namespace` error, and a newly
resolved external schema makes the whole resolution pass return that
error (an `Except.error`, so no partial result is returned). -/
theorem unresolved_namespace_fatal :
    (∀ (env : ResolveEnv) (st : ResolveState) (schema : XSDSchema)
        (rest : List XSDSchema) (loc : String),
      0 < env.nsToPkg.length →
      (lookupA env.nsToPkg schema.TargetNamespace).getD "" = "" →
      unmarshalSchemasLoop env st (schema :: rest) loc
        = (st, .error ("no package mapping for namespace " ++ schema.TargetNamespace)))
    ∧ (∀ (env : ResolveEnv) (A B : XSDSchema) (LA LB refAB : String),
      A.Imports = [] → A.Includes = [⟨refAB⟩] →
      env.parse LA refAB = some LB → env.world LB = some B →
      B.Imports = [] → B.Includes = [] →
      0 < env.nsToPkg.length →
      (lookupA env.nsToPkg B.TargetNamespace).getD "" = "" →
      resolveXSDExternals env initResolveState A LA
        = (⟨[LB], 0, [LB], []⟩,
           .error ("no package mapping for namespace " ++ B.TargetNamespace))) := by
  constructor
  · intro env st schema rest loc hlen hmap
    rw [unmarshalSchemasLoop]
    rw [if_pos ⟨hlen, hmap⟩]
  · intro env A B LA LB refAB hAimp hAinc hp hw hBimp hBinc hlen hmap
    simp [resolveXSDExternals, resolveXSDExternalsF, resolveImportsLoop,
      resolveIncludesLoop, downloadExt, initResolveState, maxRecursion,
      hAimp, hAinc, hp, hw, hBimp, hBinc, hlen, hmap]


theorem logStep_refl (st : ResolveState) : LogStep st st :=
  ⟨[], by simp, by simp⟩


theorem logStep_trans {a b c : ResolveState} (h1 : LogStep a b)
    (h2 : LogStep b c) : LogStep a c := by
  obtain ⟨t1, h11, h12⟩ := h1
  obtain ⟨t2, h21, h22⟩ := h2
  refine ⟨t1 ++ t2, ?_, ?_⟩
  · rw [h21, h11, List.append_assoc]
  · rw [h22, h12, List.length_append]
    omega


theorem resolver_logStep : ∀ fuel : Nat,
    (∀ (env : ResolveEnv) (st : ResolveState) impts loc,
      LogStep st (resolveImportsLoop env fuel st impts loc).1)
    ∧ (∀ (env : ResolveEnv) (st : ResolveState) incls loc,
      LogStep st (resolveIncludesLoop env fuel st incls loc).1)
    ∧ (∀ (env : ResolveEnv) (st : ResolveState) base ref,
      LogStep st (downloadExt env fuel st base ref).1)
    ∧ (∀ (env : ResolveEnv) (st : ResolveState) schema loc,
      LogStep st (resolveXSDExternalsF env fuel st schema loc).1) := by
  intro fuel
  induction fuel using Nat.strong_induction_on with
  | _ fuel ih =>
    have hres : ∀ (env : ResolveEnv) (st : ResolveState) schema loc,
        LogStep st (resolveXSDExternalsF env fuel st schema loc).1 := by
      intro env st schema loc
      by_cases h0 : fuel = 0
      · rw [resolveXSDExternalsF, dif_pos h0]
        exact logStep_refl st
      · have ihf := ih (fuel - 1) (by omega)
        rw [resolveXSDExternalsF, dif_neg h0]
        rcases himp : resolveImportsLoop env (fuel - 1) st schema.Imports loc
          with ⟨st1, r1⟩
        have l1 : LogStep st st1 := by
          have := ihf.1 env st schema.Imports loc
          rwa [himp] at this
        cases r1 with
        | error e => exact l1
        | ok acc1 =>
          dsimp only
          rcases hinc : resolveIncludesLoop env (fuel - 1) st1 schema.Includes loc
            with ⟨st2, r2⟩
          have l2 : LogStep st1 st2 := by
            have := ihf.2.1 env st1 schema.Includes loc
            rwa [hinc] at this
          cases r2 with
          | error e => exact logStep_trans l1 l2
          | ok acc2 => exact logStep_trans l1 l2
    have hdown : ∀ (env : ResolveEnv) (st : ResolveState) base ref,
        LogStep st (downloadExt env fuel st base ref).1 := by
      intro env st base ref
      rw [downloadExt]
      cases hp : env.parse base ref with
      | none => exact logStep_refl st
      | some key =>
        dsimp only
        by_cases hv : key ∈ st.resolvedXSDExternals
        · rw [if_pos hv]
          exact logStep_refl st
        · rw [if_neg hv]
          cases hw : env.world key with
          | none => exact ⟨[], by simp, by simp⟩
          | some newschema =>
            dsimp only
            by_cases hg : (0 < newschema.Includes.length ∨ 0 < newschema.Imports.length)
                ∧ st.currentRecursionLevel < maxRecursion
            · rw [if_pos hg]
              rcases hr : resolveXSDExternalsF env fuel { st with resolvedXSDExternals := st.resolvedXSDExternals ++ [key], currentRecursionLevel := st.currentRecursionLevel + 1, fetchLog := st.fetchLog ++ [key], recLog := st.recLog ++ [key] } newschema key with ⟨st4, r4⟩
              have l4 : LogStep st st4 := by
                have hx := hres env { st with resolvedXSDExternals := st.resolvedXSDExternals ++ [key], currentRecursionLevel := st.currentRecursionLevel + 1, fetchLog := st.fetchLog ++ [key], recLog := st.recLog ++ [key] } newschema key
                rw [hr] at hx
                exact logStep_trans ⟨[key], by simp, by simp⟩ hx
              cases r4 with
              | error e => exact l4
              | ok dr =>
                dsimp only
                split
                · exact l4
                · exact l4
            · rw [if_neg hg]
              dsimp only
              split
              · exact ⟨[], by simp, by simp⟩
              · exact ⟨[], by simp, by simp⟩
    have himps : ∀ (env : ResolveEnv) (st : ResolveState) impts loc,
        LogStep st (resolveImportsLoop env fuel st impts loc).1 := by
      intro env st impts loc
      induction impts generalizing st with
      | nil =>
        rw [resolveImportsLoop]
        exact logStep_refl st
      | cons impt rest ihl =>
        rw [resolveImportsLoop]
        by_cases hsl : impt.SchemaLocation = ""
        · rw [if_pos hsl]
          exact ihl st
        · rw [if_neg hsl]
          rcases hd : downloadExt env fuel st loc impt.SchemaLocation with ⟨st1, r1⟩
          have l1 : LogStep st st1 := by
            have := hdown env st loc impt.SchemaLocation
            rwa [hd] at this
          cases r1 with
          | error e => exact l1
          | ok ns1 =>
            dsimp only
            rcases hrest : resolveImportsLoop env fuel st1 rest loc with ⟨st2, r2⟩
            have l2 : LogStep st1 st2 := by
              have := ihl st1
              rwa [hrest] at this
            cases r2 with
            | error e => exact logStep_trans l1 l2
            | ok more => exact logStep_trans l1 l2
    have hincs : ∀ (env : ResolveEnv) (st : ResolveState) incls loc,
        LogStep st (resolveIncludesLoop env fuel st incls loc).1 := by
      intro env st incls loc
      induction incls generalizing st with
      | nil =>
        rw [resolveIncludesLoop]
        exact logStep_refl st
      | cons incl rest ihl =>
        rw [resolveIncludesLoop]
        rcases hd : downloadExt env fuel st loc incl.SchemaLocation with ⟨st1, r1⟩
        have l1 : LogStep st st1 := by
          have := hdown env st loc incl.SchemaLocation
          rwa [hd] at this
        cases r1 with
        | error e => exact l1
        | ok ns1 =>
          dsimp only
          rcases hrest : resolveIncludesLoop env fuel st1 rest loc with ⟨st2, r2⟩
          have l2 : LogStep st1 st2 := by
            have := ihl st1
            rwa [hrest] at this
          cases r2 with
          | error e => exact logStep_trans l1 l2
          | ok more => exact logStep_trans l1 l2
    exact ⟨himps, hincs, hdown, hres⟩


theorem downloadShallow_frame (env : ResolveEnv) (st : ResolveState)
    (base ref : String) :
    (downloadShallow env st base ref).1.currentRecursionLevel = st.currentRecursionLevel
    ∧ (downloadShallow env st base ref).1.recLog = st.recLog := by
  rw [downloadShallow]
  cases hp : env.parse base ref with
  | none => exact ⟨rfl, rfl⟩
  | some key =>
    dsimp only
    by_cases hv : key ∈ st.resolvedXSDExternals
    · rw [if_pos hv]
      exact ⟨rfl, rfl⟩
    · rw [if_neg hv]
      cases hw : env.world key with
      | none => exact ⟨rfl, rfl⟩
      | some newschema =>
        dsimp only
        split
        · exact ⟨rfl, rfl⟩
        · exact ⟨rfl, rfl⟩


theorem importsLoopShallow_frame (env : ResolveEnv) (impts : List XSDImport)
    (st : ResolveState) (loc : String) :
    (importsLoopShallow env st impts loc).1.currentRecursionLevel = st.currentRecursionLevel
    ∧ (importsLoopShallow env st impts loc).1.recLog = st.recLog := by
  induction impts generalizing st with
  | nil => exact ⟨rfl, rfl⟩
  | cons impt rest ihl =>
    rw [importsLoopShallow]
    by_cases hsl : impt.SchemaLocation = ""
    · rw [if_pos hsl]
      exact ihl st
    · rw [if_neg hsl]
      rcases hd : downloadShallow env st loc impt.SchemaLocation with ⟨st1, r1⟩
      have f1 := downloadShallow_frame env st loc impt.SchemaLocation
      rw [hd] at f1
      cases r1 with
      | error e => exact f1
      | ok ns1 =>
        dsimp only
        rcases hrest : importsLoopShallow env st1 rest loc with ⟨st2, r2⟩
        have f2 := ihl st1
        rw [hrest] at f2
        cases r2 with
        | error e => exact ⟨f2.1.trans f1.1, f2.2.trans f1.2⟩
        | ok more => exact ⟨f2.1.trans f1.1, f2.2.trans f1.2⟩


theorem includesLoopShallow_frame (env : ResolveEnv) (incls : List XSDInclude)
    (st : ResolveState) (loc : String) :
    (includesLoopShallow env st incls loc).1.currentRecursionLevel = st.currentRecursionLevel
    ∧ (includesLoopShallow env st incls loc).1.recLog = st.recLog := by
  induction incls generalizing st with
  | nil => exact ⟨rfl, rfl⟩
  | cons incl rest ihl =>
    rw [includesLoopShallow]
    rcases hd : downloadShallow env st loc incl.SchemaLocation with ⟨st1, r1⟩
    have f1 := downloadShallow_frame env st loc incl.SchemaLocation
    rw [hd] at f1
    cases r1 with
    | error e => exact f1
    | ok ns1 =>
      dsimp only
      rcases hrest : includesLoopShallow env st1 rest loc with ⟨st2, r2⟩
      have f2 := ihl st1
      rw [hrest] at f2
      cases r2 with
      | error e => exact ⟨f2.1.trans f1.1, f2.2.trans f1.2⟩
      | ok more => exact ⟨f2.1.trans f1.1, f2.2.trans f1.2⟩


theorem resolveShallow_frame (env : ResolveEnv) (st : ResolveState)
    (schema : XSDSchema) (loc : String) :
    (resolveShallow env st schema loc).1.currentRecursionLevel = st.currentRecursionLevel
    ∧ (resolveShallow env st schema loc).1.recLog = st.recLog := by
  rw [resolveShallow]
  rcases himp : importsLoopShallow env st schema.Imports loc with ⟨st1, r1⟩
  have f1 := importsLoopShallow_frame env schema.Imports st loc
  rw [himp] at f1
  cases r1 with
  | error e => exact f1
  | ok acc1 =>
    dsimp only
    rcases hinc : includesLoopShallow env st1 schema.Includes loc with ⟨st2, r2⟩
    have f2 := includesLoopShallow_frame env schema.Includes st1 loc
    rw [hinc] at f2
    cases r2 with
    | error e => exact ⟨f2.1.trans f1.1, f2.2.trans f1.2⟩
    | ok acc2 => exact ⟨f2.1.trans f1.1, f2.2.trans f1.2⟩


theorem downloadExt_at_ceiling (env : ResolveEnv) (fuel : Nat) (st : ResolveState)
    (base ref : String) (h : maxRecursion ≤ st.currentRecursionLevel) :
    downloadExt env fuel st base ref = downloadShallow env st base ref := by
  rw [downloadExt, downloadShallow]
  cases hp : env.parse base ref with
  | none => rfl
  | some key =>
    dsimp only
    by_cases hv : key ∈ st.resolvedXSDExternals
    · rw [if_pos hv, if_pos hv]
    · rw [if_neg hv, if_neg hv]
      cases hw : env.world key with
      | none => rfl
      | some newschema =>
        dsimp only
        rw [if_neg (fun hc => absurd hc.2 (by omega))]
        dsimp only
        by_cases hns : 0 < env.nsToPkg.length
            ∧ (lookupA env.nsToPkg newschema.TargetNamespace).getD "" = ""
        · rw [if_pos hns, if_pos hns]
        · rw [if_neg hns, if_neg hns]
          simp


theorem importsLoop_at_ceiling (env : ResolveEnv) (fuel : Nat)
    (impts : List XSDImport) (st : ResolveState) (loc : String)
    (h : maxRecursion ≤ st.currentRecursionLevel) :
    resolveImportsLoop env fuel st impts loc = importsLoopShallow env st impts loc := by
  induction impts generalizing st with
  | nil => rw [resolveImportsLoop, importsLoopShallow]
  | cons impt rest ihl =>
    rw [resolveImportsLoop, importsLoopShallow]
    by_cases hsl : impt.SchemaLocation = ""
    · rw [if_pos hsl, if_pos hsl]
      exact ihl st h
    · rw [if_neg hsl, if_neg hsl]
      rw [downloadExt_at_ceiling env fuel st loc impt.SchemaLocation h]
      rcases hd : downloadShallow env st loc impt.SchemaLocation with ⟨st1, r1⟩
      have f1 := downloadShallow_frame env st loc impt.SchemaLocation
      rw [hd] at f1
      cases r1 with
      | error e => rfl
      | ok ns1 =>
        dsimp only
        rw [ihl st1 (f1.1 ▸ h)]


theorem includesLoop_at_ceiling (env : ResolveEnv) (fuel : Nat)
    (incls : List XSDInclude) (st : ResolveState) (loc : String)
    (h : maxRecursion ≤ st.currentRecursionLevel) :
    resolveIncludesLoop env fuel st incls loc = includesLoopShallow env st incls loc := by
  induction incls generalizing st with
  | nil => rw [resolveIncludesLoop, includesLoopShallow]
  | cons incl rest ihl =>
    rw [resolveIncludesLoop, includesLoopShallow]
    rw [downloadExt_at_ceiling env fuel st loc incl.SchemaLocation h]
    rcases hd : downloadShallow env st loc incl.SchemaLocation with ⟨st1, r1⟩
    have f1 := downloadShallow_frame env st loc incl.SchemaLocation
    rw [hd] at f1
    cases r1 with
    | error e => rfl
    | ok ns1 =>
      dsimp only
      rw [ihl st1 (f1.1 ▸ h)]


theorem resolveF_at_ceiling (env : ResolveEnv) (fuel : Nat) (st : ResolveState)
    (schema : XSDSchema) (loc : String) (h : maxRecursion ≤ st.currentRecursionLevel)
    (hf : fuel ≠ 0) :
    resolveXSDExternalsF env fuel st schema loc = resolveShallow env st schema loc := by
  rw [resolveXSDExternalsF, dif_neg hf, resolveShallow]
  rw [importsLoop_at_ceiling env (fuel - 1) schema.Imports st loc h]
  rcases himp : importsLoopShallow env st schema.Imports loc with ⟨st1, r1⟩
  have f1 := importsLoopShallow_frame env schema.Imports st loc
  rw [himp] at f1
  cases r1 with
  | error e => rfl
  | ok acc1 =>
    dsimp only
    rw [includesLoop_at_ceiling env (fuel - 1) schema.Includes st1 loc (f1.1 ▸ h)]


/-- C3: external-resolution recursion is bounded by a single global
counter with ceiling `maxRecursion = 20`: the counter grows by exactly
one per recursive entry (the ghost `recLog` lists those entries) and is
never reset or decremented, and once the counter has reached the ceiling
the resolver equals `resolveShallow`, which never recurses into a newly
decoded document's imports/includes (its `recLog` and counter are
untouched) and silently returns its results rather than an error. -/
theorem recursion_ceiling_global :
    maxRecursion = 20
    ∧ (∀ (env : ResolveEnv) (fuel : Nat) (st : ResolveState) (schema : XSDSchema)
        (loc : String),
        ∃ t, (resolveXSDExternalsF env fuel st schema loc).1.recLog = st.recLog ++ t
          ∧ (resolveXSDExternalsF env fuel st schema loc).1.currentRecursionLevel
              = st.currentRecursionLevel + t.length)
    ∧ (∀ (env : ResolveEnv) (fuel : Nat) (st : ResolveState) (schema : XSDSchema)
        (loc : String),
        maxRecursion ≤ st.currentRecursionLevel → fuel ≠ 0 →
        resolveXSDExternalsF env fuel st schema loc = resolveShallow env st schema loc)
    ∧ (∀ (env : ResolveEnv) (st : ResolveState) (schema : XSDSchema) (loc : String),
        (resolveShallow env st schema loc).1.currentRecursionLevel
            = st.currentRecursionLevel
        ∧ (resolveShallow env st schema loc).1.recLog = st.recLog) :=
  ⟨rfl,
   fun env fuel st schema loc => (resolver_logStep fuel).2.2.2 env st schema loc,
   fun env fuel st schema loc h hf => resolveF_at_ceiling env fuel st schema loc h hf,
   fun env st schema loc => resolveShallow_frame env st schema loc⟩


theorem recursion_ceiling_global_witness :
    resolveXSDExternalsF cycleEnv 1 ⟨[], 20, [], []⟩ cycleSchemaA "LA"
      = resolveShallow cycleEnv ⟨[], 20, [], []⟩ cycleSchemaA "LA"
    ∧ ∃ t, (resolveXSDExternalsF cycleEnv 21 initResolveState cycleSchemaA "LA").1.recLog
          = initResolveState.recLog ++ t
        ∧ (resolveXSDExternalsF cycleEnv 21 initResolveState cycleSchemaA "LA").1.currentRecursionLevel
          = initResolveState.currentRecursionLevel + t.length :=
  ⟨recursion_ceiling_global.2.2.1 cycleEnv 1 ⟨[], 20, [], []⟩ cycleSchemaA "LA"
      (by decide) (by decide),
   recursion_ceiling_global.2.1 cycleEnv 21 initResolveState cycleSchemaA "LA"⟩

theorem unresolved_namespace_fatal_witness :
    unmarshalSchemasLoop multiEnv initResolveState [plainSchemaB] "LA"
      = (initResolveState, .error ("no package mapping for namespace " ++ "urn:B"))
    ∧ resolveXSDExternals multiEnv initResolveState cycleSchemaA "LA"
      = (⟨["LB"], 0, ["LB"], []⟩,
         .error ("no package mapping for namespace " ++ "urn:B")) :=
  ⟨unresolved_namespace_fatal.1 multiEnv initResolveState plainSchemaB [] "LA"
      (by decide) (by decide),
   unresolved_namespace_fatal.2 multiEnv cycleSchemaA plainSchemaB "LA" "LB" "b.xsd"
      rfl rfl rfl rfl rfl rfl (by decide) (by decide)⟩


end Gowsdl

namespace Gowsdl

/-- C4: a `choice` directly inside a complexType's `sequence` has its
element children appended, in document order, to the flat `Sequence`
list (no nested marker), and a non-empty `minOccurs` on the choice is
assigned as the `MinOccurs` of every contained element. -/
theorem choice_in_sequence_flattened :
    (∀ (sp ln : String) (attrs : List (String × String × String)) (kids : List XNode)
        (x : XSDChoiceType),
      decodeXSDChoiceType sp ln attrs kids = .ok x →
      decodeChoiceElems sp ln attrs kids
        = .ok (if x.MinOccurs ≠ "" then x.Elements.map (fun e => e.setMinOccurs x.MinOccurs)
               else x.Elements))
    ∧ (∀ (ct : XSDComplexType) (cattrs : List (String × String × String))
        (kids rest : List XNode) (els : List XSDElement),
      decodeChoiceElems xmlschema11 "choice" cattrs kids = .ok els →
      decodeSequenceKids ct (.elem xmlschema11 "choice" cattrs kids :: rest)
        = decodeSequenceKids (ct.setSequence (ct.Sequence ++ els)) rest)
    ∧ (∀ (x : XSDChoiceType) (sp : String) (a : List (String × String × String))
        (ck kids : List XNode) (e : XSDElement),
      decodeXSDElement sp "element" a ck = .ok e →
      choiceKidsLoop x (.elem sp "element" a ck :: kids)
        = choiceKidsLoop { x with Elements := x.Elements ++ [e] } kids) := by
  refine ⟨?_, ?_, ?_⟩
  · intro sp ln attrs kids x h
    rw [decodeChoiceElems, h]
  · intro ct cattrs kids rest els h
    rw [decodeSequenceKids]
    rw [if_neg (fun hc => hc rfl)]
    rw [if_neg (by decide : ¬(("choice" : String) = "element"))]
    rw [if_pos (rfl : ("choice" : String) = "choice")]
    rw [h]
  · intro x sp a ck kids e h
    rw [choiceKidsLoop]
    rw [if_pos (rfl : ("element" : String) = "element")]
    rw [h]

end Gowsdl

namespace Gowsdl

/-- C5 (the code bug): decoding a complexType that contains an `all`
particle with an element child returns an error — the source passes the
complexType's own start element (`&start` instead of `&t`) to
`DecodeElement`, so the `XMLName xml:"all"` name check fails with
`expected element type <all> but have <complexType>` — instead of
appending the particle's elements to the `All` list as the spec
states. -/
theorem all_particle_decode_fails :
    decodeXSDComplexType xmlschema11 "complexType" [("", "name", "T")]
        [.elem xmlschema11 "all" []
          [.elem xmlschema11 "element" [("", "name", "x")] []]]
      = .error (.nameMismatch "all" "complexType") := by
  rw [decodeXSDComplexType]
  rw [decodeCTKids]
  simp [ctAttrs, zeroComplexType, XSDComplexType.setXMLName, XSDComplexType.setName,
    XSDComplexType.XMLName, decodeXSDAllType, xmlschema11]

end Gowsdl

namespace Gowsdl

/-- C6: at both schema level and complexType level a child element
outside the XML-Schema namespace, or a schema-namespace child with an
unrecognized local name, is skipped with no effect; and on a well-formed
token stream the unmarshal can fail only with a decode-level error (a
recognized child failing to decode), never a token-level one. -/
theorem decoder_skips_unknown :
    (∀ (s : XSDSchema) (sp ln : String) (a : List (String × String × String))
        (ch rest : List XNode),
      sp ≠ xmlschema11 →
      decodeSchemaKids s (.elem sp ln a ch :: rest) = decodeSchemaKids s rest)
    ∧ (∀ (s : XSDSchema) (ln : String) (a : List (String × String × String))
        (ch rest : List XNode),
      ln ∉ ["include", "import", "element", "attribute", "complexType", "simpleType"] →
      decodeSchemaKids s (.elem xmlschema11 ln a ch :: rest) = decodeSchemaKids s rest)
    ∧ (∀ (ct : XSDComplexType) (sp ln : String) (a : List (String × String × String))
        (ch rest : List XNode),
      sp ≠ xmlschema11 →
      decodeCTKids ct (.elem sp ln a ch :: rest) = decodeCTKids ct rest)
    ∧ (∀ (ct : XSDComplexType) (ln : String) (a : List (String × String × String))
        (ch rest : List XNode),
      ln ∉ ["attribute", "sequence", "choice", "all", "complexContent", "simpleContent"] →
      decodeCTKids ct (.elem xmlschema11 ln a ch :: rest) = decodeCTKids ct rest)
    ∧ (∀ (ts : List XTok), wellFormedDoc ts →
      ∀ e, xmlUnmarshalSchema ts = .error e → ∃ d, e = .dec d) := by
  refine ⟨?_, ?_, ?_, ?_, ?_⟩
  · intro s sp ln a ch rest h
    rw [decodeSchemaKids]
    rw [if_pos h]
  · intro s ln a ch rest h
    simp only [List.mem_cons, List.mem_singleton, not_or] at h
    obtain ⟨h1, h2, h3, h4, h5, h6, -⟩ := h
    rw [decodeSchemaKids]
    rw [if_neg (fun hc => hc rfl), if_neg h1, if_neg h2, if_neg h3, if_neg h4,
      if_neg h5, if_neg h6]
  · intro ct sp ln a ch rest h
    rw [decodeCTKids]
    rw [if_pos h]
  · intro ct ln a ch rest h
    simp only [List.mem_cons, List.mem_singleton, not_or] at h
    obtain ⟨h1, h2, h3, h4, h5, h6, -⟩ := h
    rw [decodeCTKids]
    rw [if_neg (fun hc => hc rfl), if_neg h1, if_neg h2, if_neg h3, if_neg h4,
      if_neg h5, if_neg h6]
  · intro ts hwf e he
    obtain ⟨f, n, hf, hn⟩ := hwf
    obtain ⟨sp, ln, attrs, kids⟩ := n
    rw [xmlUnmarshalSchema, hf] at he
    dsimp only at he
    rw [hn] at he
    dsimp only at he
    cases hd : decodeXSDSchema sp ln attrs kids with
    | error d =>
      rw [hd] at he
      dsimp only at he
      cases he
      exact ⟨d, rfl⟩
    | ok s =>
      rw [hd] at he
      dsimp only at he
      cases he

end Gowsdl



namespace Gowsdl

theorem choice_in_sequence_flattened_witness :
    decodeChoiceElems xmlschema11 "choice" [("", "minOccurs", "0")]
        [sampleElemNode "b", sampleElemNode "c"]
      = .ok (if sampleChoiceType.MinOccurs ≠ "" then
               sampleChoiceType.Elements.map
                 (fun e => e.setMinOccurs sampleChoiceType.MinOccurs)
             else sampleChoiceType.Elements)
    ∧ decodeSequenceKids zeroComplexType
        [.elem xmlschema11 "choice" [("", "minOccurs", "0")]
          [sampleElemNode "b", sampleElemNode "c"]]
      = decodeSequenceKids
          (zeroComplexType.setSequence (zeroComplexType.Sequence
            ++ [(sampleElem "b").setMinOccurs "0", (sampleElem "c").setMinOccurs "0"]))
          []
    ∧ choiceKidsLoop sampleChoiceType [sampleElemNode "b"]
      = choiceKidsLoop
          { sampleChoiceType with
            Elements := sampleChoiceType.Elements ++ [sampleElem "b"] } [] := by
  have hx : decodeXSDChoiceType xmlschema11 "choice" [("", "minOccurs", "0")]
      [sampleElemNode "b", sampleElemNode "c"] = .ok sampleChoiceType := by
    simp [decodeXSDChoiceType, choiceKidsLoop, decodeXSDElement, elementAttrsLoop,
      elementKidsLoop, attrGetD, attrGet, sampleElemNode, sampleElem, sampleChoiceType]
  have h1 := choice_in_sequence_flattened.1 xmlschema11 "choice"
    [("", "minOccurs", "0")] [sampleElemNode "b", sampleElemNode "c"]
    sampleChoiceType hx
  have hels : decodeChoiceElems xmlschema11 "choice" [("", "minOccurs", "0")]
      [sampleElemNode "b", sampleElemNode "c"]
      = .ok [(sampleElem "b").setMinOccurs "0", (sampleElem "c").setMinOccurs "0"] := by
    rw [h1]
    simp [sampleChoiceType]
  have hel : decodeXSDElement xmlschema11 "element" [("", "name", "b")] []
      = .ok (sampleElem "b") := by
    simp [decodeXSDElement, elementAttrsLoop, elementKidsLoop, attrGetD, attrGet,
      sampleElem]
  refine ⟨h1, ?_, ?_⟩
  · exact choice_in_sequence_flattened.2.1 zeroComplexType [("", "minOccurs", "0")]
      [sampleElemNode "b", sampleElemNode "c"] [] _ hels
  · have := choice_in_sequence_flattened.2.2 sampleChoiceType xmlschema11
      [("", "name", "b")] [] [] (sampleElem "b") hel
    simpa [sampleElemNode] using this

end Gowsdl

namespace Gowsdl


theorem decoder_skips_unknown_witness :
    decodeSchemaKids emptyXSDSchema [.elem "urn:other" "weird" [] []]
      = decodeSchemaKids emptyXSDSchema []
    ∧ decodeCTKids zeroComplexType [.elem xmlschema11 "annotation" [] []]
      = decodeCTKids zeroComplexType []
    ∧ (∃ d, XMLErr.dec (DecodeErr.boolParseError "yes") = .dec d) := by
  refine ⟨?_, ?_, ?_⟩
  · exact decoder_skips_unknown.1 emptyXSDSchema "urn:other" "weird" [] [] []
      (by decide)
  · exact decoder_skips_unknown.2.2.2.1 zeroComplexType "annotation" [] [] []
      (by decide)
  · refine decoder_skips_unknown.2.2.2.2 badNillableToks ⟨_, _, rfl, rfl⟩ _ ?_
    simp [xmlUnmarshalSchema, buildForest, buildForestAux, firstElemNode,
      decodeXSDSchema, schemaAttrs, decodeSchemaKids, decodeXSDElement,
      elementAttrsLoop, parseBool, attrGetD, attrGet, emptyXSDSchema,
      badNillableToks, setA]

end Gowsdl
